import Mathlib

/-!
# Mempool statistics: the `getmempoolstats` RPC handler and the sample store behind it

The handler `getmempoolstats` (src/stats/rpc_stats.cpp) is embedded statement by statement.
The JSON container it builds (univalue.h), the sample record it reads (stats/stats.h) and the
store it queries (stats/stats.cpp) are not part of the sources at hand; they are modelled from
the specification and marked as such.
-/

namespace MempoolStats

/-! ## JSON values -/

/-- Modelled from the spec: the JSON value type `UniValue` (univalue.h is missing). Only the
kinds the handler touches carry structure: a number holds its integer value, an array its
items in insertion order, an object its key/value pairs in insertion order. -/
inductive UniValue where
  | VNULL : UniValue
  | VSTR (val : String) : UniValue
  | VNUM (val : Int) : UniValue
  | VBOOL (val : Bool) : UniValue
  | VARR (values : List UniValue) : UniValue
  | VOBJ (entries : List (String × UniValue)) : UniValue

namespace UniValue

/-- Modelled from the spec: `UniValue::size()`, the number of items of an array or object
(zero for the scalar kinds). -/
def size : UniValue → Nat
  | VARR values => values.length
  | VOBJ entries => entries.length
  | _ => 0

/-- Modelled from the spec: `UniValue::push_back`, appending one item to an array; any other
kind is left as it is. -/
def push_back (self : UniValue) (val : UniValue) : UniValue :=
  match self with
  | VARR values => VARR (values ++ [val])
  | other => other

/-- Replaces the value stored under `key` in a key/value sequence (first match). -/
def replaceKey (key : String) (val : UniValue) :
    List (String × UniValue) → List (String × UniValue)
  | [] => []
  | (k, v) :: rest =>
    if k = key then (k, val) :: rest else (k, v) :: replaceKey key val rest

/-- Modelled from the spec: `UniValue::pushKV`, setting `key` in an object: an existing key
keeps its position and gets the new value, a new key is appended; any other kind is left as
it is. -/
def pushKV (self : UniValue) (key : String) (val : UniValue) : UniValue :=
  match self with
  | VOBJ entries =>
    if entries.any (fun kv => kv.1 = key) then VOBJ (replaceKey key val entries)
    else VOBJ (entries ++ [(key, val)])
  | other => other

/-- The keys of an object, in order (empty for the other kinds). -/
def getKeys : UniValue → List String
  | VOBJ entries => entries.map Prod.fst
  | _ => []

/-- The items of an array or the values of an object, in order. -/
def getValues : UniValue → List UniValue
  | VARR values => values
  | VOBJ entries => entries.map Prod.snd
  | _ => []

/-- Looks a key up in an object. -/
def find (self : UniValue) (key : String) : Option UniValue :=
  match self with
  | VOBJ entries => (entries.find? (fun kv => kv.1 = key)).map Prod.snd
  | _ => none

end UniValue

/-! ## The handler -/

/-- Modelled from the spec: `struct CStatsMempoolSample` (stats/stats.h is missing), the four
fields the handler reads, as mathematical integers. -/
structure CStatsMempoolSample where
  m_time_delta : Int
  m_tx_count : Int
  m_dyn_mem_usage : Int
  m_min_fee_per_k : Int
deriving DecidableEq, Repr

/-- The sample container `mempoolSamples_t`. -/
abbrev mempoolSamples_t := List CStatsMempoolSample

/-- The conversion `(uint64_t)x` of an integer value. -/
def castUInt64 (x : Int) : Int := x % (2 ^ 64 : Int)

/-- The part of `JSONRPCRequest` the handler inspects. -/
structure JSONRPCRequest where
  fHelp : Bool
  params : UniValue

/-- What `mempoolGetValuesInRange(timeFrom, timeTo)` leaves behind: the returned samples and
the values of the two by-reference bounds after the call. -/
structure RangeReply where
  samples : mempoolSamples_t
  timeFrom : Nat
  timeTo : Nat
deriving DecidableEq, Repr

/-- One pass of the loop body of `getmempoolstats` (lines 48-53): the flat array built for
`sample`, pushed onto `samplesObj`. -/
def pushSample (samplesObj : UniValue) (sample : CStatsMempoolSample) : UniValue :=
  let singleSample := UniValue.VARR []
  let singleSample := singleSample.push_back (UniValue.VNUM (castUInt64 sample.m_time_delta))
  let singleSample := singleSample.push_back (UniValue.VNUM sample.m_tx_count)
  let singleSample := singleSample.push_back (UniValue.VNUM sample.m_dyn_mem_usage)
  let singleSample := singleSample.push_back (UniValue.VNUM sample.m_min_fee_per_k)
  samplesObj.push_back singleSample

/-- The handler `getmempoolstats(request)`. `helpText` is the string produced by
`RPCHelpMan{...}.ToString()` and `store` is `CStats::DefaultStats()->mempoolGetValuesInRange`;
a thrown `std::runtime_error` is `Except.error` carrying its message. -/
def getmempoolstats (helpText : String) (store : Nat → Nat → RangeReply)
    (request : JSONRPCRequest) : Except String UniValue :=
  if request.fHelp || request.params.size != 0 then
    Except.error helpText
  else
    -- get stats from the core stats model
    let timeFrom : Nat := 0
    let timeTo : Nat := 0
    let reply := store timeFrom timeTo
    let samples := reply.samples
    let timeFrom := reply.timeFrom
    let timeTo := reply.timeTo
    -- use "flat" json encoding
    let samplesObj := samples.foldl pushSample (UniValue.VARR [])
    let result := UniValue.VOBJ []
    let result := result.pushKV "time_from" (UniValue.VNUM (timeFrom : Int))
    let result := result.pushKV "time_to" (UniValue.VNUM (timeTo : Int))
    let result := result.pushKV "samples" samplesObj
    Except.ok result

/-! ## The sample store -/

/-- Modelled from the spec: a `Sample`, one observation of the pool (spec section 3). -/
structure Sample where
  timestamp : Nat
  tx_count : Nat
  dynamic_memory_usage : Nat
  min_fee_rate : Nat
deriving DecidableEq, Repr

/-- Modelled from the spec: the `SampleStore` (spec sections 3 and 4.2), the retained samples
oldest first together with the capacity, a maximum count. -/
structure SampleStore where
  capacity : Nat
  samples : List Sample
deriving DecidableEq, Repr

/-- Modelled from the spec: the store as created at start-up, holding nothing. -/
def SampleStore.empty (capacity : Nat) : SampleStore := ⟨capacity, []⟩

/-- Number of retained samples. -/
def SampleStore.size (s : SampleStore) : Nat := s.samples.length

/-- Modelled from the spec: `append(sample)` "inserts at the tail; if resulting size exceeds
capacity, atomically evicts the head". -/
def SampleStore.append (s : SampleStore) (x : Sample) : SampleStore :=
  let inserted := s.samples ++ [x]
  if s.capacity < inserted.length then { s with samples := inserted.tail }
  else { s with samples := inserted }

/-- Modelled from the spec: a binary search (spec section 4.3) for the first index in
`[lo, hi)` at which `p` holds, `hi` when there is none; `fuel` bounds the number of halvings. -/
def searchFirst (p : Nat → Bool) : Nat → Nat → Nat → Nat
  | 0, lo, _ => lo
  | fuel + 1, lo, hi =>
    if lo < hi then
      let mid := lo + (hi - lo) / 2
      if p mid then searchFirst p fuel lo mid else searchFirst p fuel (mid + 1) hi
    else lo

/-- Whether the sample at index `i` satisfies `q` (true past the end). -/
def testAt (xs : List Sample) (q : Sample → Bool) (i : Nat) : Bool :=
  match xs.get? i with
  | some x => q x
  | none => true

/-- Modelled from the spec: the "lower bound ≥ from" search, the index of the first retained
sample whose timestamp is at least `fromTime`. -/
def lowerBound (xs : List Sample) (fromTime : Nat) : Nat :=
  searchFirst (testAt xs (fun x => decide (fromTime ≤ x.timestamp))) xs.length 0 xs.length

/-- Modelled from the spec: the "upper bound ≤ to" search, one past the index of the last
retained sample whose timestamp is at most `toTime`. -/
def upperBound (xs : List Sample) (toTime : Nat) : Nat :=
  searchFirst (testAt xs (fun x => decide (toTime < x.timestamp))) xs.length 0 xs.length

/-- Modelled from the spec: the answer of a range query, the selected samples and the
bounds actually covered. -/
structure QueryResult where
  samples : List Sample
  time_from : Nat
  time_to : Nat
deriving DecidableEq, Repr

/-- Modelled from the spec: the bounds reported with a selection are "the timestamps of the
first and last returned sample, or 0/0 if the result is empty". -/
def QueryResult.ofSamples (xs : List Sample) : QueryResult :=
  { samples := xs
    time_from := (xs.head?.map Sample.timestamp).getD 0
    time_to := (xs.getLast?.map Sample.timestamp).getD 0 }

/-- Modelled from the spec: `queryRange(from, to)` (spec sections 4.2 and 4.3). The open
range `0, 0` selects everything, `to < from` selects nothing, and any other range is cut out
of the time-ordered sequence by the two binary searches. -/
def SampleStore.queryRange (s : SampleStore) (fromTime toTime : Nat) : QueryResult :=
  if fromTime = 0 ∧ toTime = 0 then QueryResult.ofSamples s.samples
  else if toTime < fromTime then { samples := [], time_from := 0, time_to := 0 }
  else
    let lo := lowerBound s.samples fromTime
    let hi := upperBound s.samples toTime
    QueryResult.ofSamples ((s.samples.drop lo).take (hi - lo))

/-- Modelled from the spec: `CStats::mempoolGetValuesInRange` (stats/stats.cpp is missing).
It runs the range query, reports the covered bounds through the two references and hands
each selected sample over in the record the handler reads: time delta from `time_from`,
transaction count, dynamic memory usage, minimum fee rate (spec sections 4.4 and 6). -/
def mempoolGetValuesInRange (s : SampleStore) (timeFrom timeTo : Nat) : RangeReply :=
  let r := s.queryRange timeFrom timeTo
  { samples := r.samples.map (fun x =>
      { m_time_delta := (x.timestamp : Int) - (r.time_from : Int)
        m_tx_count := (x.tx_count : Int)
        m_dyn_mem_usage := (x.dynamic_memory_usage : Int)
        m_min_fee_per_k := (x.min_fee_rate : Int) })
    timeFrom := r.time_from
    timeTo := r.time_to }

/-- The store invariant of spec section 3: timestamps never decrease in store order. -/
def TimeOrdered (xs : List Sample) : Prop :=
  xs.Pairwise (fun a b => a.timestamp ≤ b.timestamp)

instance (xs : List Sample) : Decidable (TimeOrdered xs) := by
  unfold TimeOrdered; infer_instance

/-- The flat array the handler emits for one sample. -/
def flatSample (sample : CStatsMempoolSample) : UniValue :=
  UniValue.VARR [UniValue.VNUM (castUInt64 sample.m_time_delta), UniValue.VNUM sample.m_tx_count,
    UniValue.VNUM sample.m_dyn_mem_usage, UniValue.VNUM sample.m_min_fee_per_k]

/-- The object the handler builds from what the store left behind (lines 56-59). -/
def resultObject (reply : RangeReply) : UniValue :=
  UniValue.VOBJ [("time_from", UniValue.VNUM (reply.timeFrom : Int)),
    ("time_to", UniValue.VNUM (reply.timeTo : Int)),
    ("samples", UniValue.VARR (reply.samples.map flatSample))]

/-- One row of the dispatch table `commands` (lines 64-68). -/
structure CRPCCommand where
  category : String
  name : String
  actor : String → (Nat → Nat → RangeReply) → JSONRPCRequest → Except String UniValue
  argNames : List String

/-- The dispatch table `commands`. -/
def commands : List CRPCCommand :=
  [{ category := "stats", name := "getmempoolstats", actor := getmempoolstats, argNames := [] }]

/-- A request that asks for no help and carries no parameters. -/
def plainRequest : JSONRPCRequest := { fHelp := false, params := UniValue.VARR [] }

/-- A store answer with two samples, for worked scenarios. -/
def twoSampleReply : RangeReply :=
  { samples := [⟨0, 7, 4096, 1000⟩, ⟨60, 9, 8192, 1500⟩], timeFrom := 1600000000,
    timeTo := 1600000060 }

/-- A sample with the given timestamp and fixed metrics, for worked scenarios. -/
def sampleAt (t : Nat) : Sample := ⟨t, 10 * t, 100 * t, 1000⟩

/-- Modelled from the spec: the summary metrics the Collector reads from the pool on a tick
(spec section 4.1): transaction count, dynamic memory usage, minimum fee rate. -/
structure PoolMetrics where
  tx_count : Nat
  dynamic_memory_usage : Nat
  min_fee_rate : Nat
deriving DecidableEq, Repr

/-- Modelled from the spec: one tick of the Collector's timer: the clock reading and the
pool metrics, `none` while they are momentarily unavailable. -/
structure Tick where
  clock : Nat
  metrics : Option PoolMetrics
deriving DecidableEq, Repr

/-- Modelled from the spec: the Collector (spec section 4.1) performs "exactly one successful
append per tick, or none if metrics are momentarily unavailable"; the sample carries the
clock reading of the tick. -/
def Collector.tick (s : SampleStore) (t : Tick) : SampleStore :=
  match t.metrics with
  | some m => s.append ⟨t.clock, m.tx_count, m.dynamic_memory_usage, m.min_fee_rate⟩
  | none => s

/-- The clock readings of a run of ticks never decrease (spec section 3: the timestamp is a
"monotonically non-decreasing integer"). -/
def ClockMonotone (ticks : List Tick) : Prop :=
  ticks.Pairwise (fun a b => a.clock ≤ b.clock)

instance (ticks : List Tick) : Decidable (ClockMonotone ticks) := by
  unfold ClockMonotone; infer_instance

/-- A tick with the given clock reading and fixed metrics, for worked scenarios. -/
def tickAt (t : Nat) : Tick := ⟨t, some ⟨10 * t, 100 * t, 1000⟩⟩

end MempoolStats

/-!
# The options dialog (src/qt/optionsdialog.cpp)

The dialog's handlers are embedded over the widgets they touch. Qt's widgets are modelled by
the state the handlers read and write; the options model behind the dialog (OptionsModel) is
a parameter: the values it returns for a row, and the sequence of writes it receives.
-/

namespace OptionsDialog

/-- The value `std::numeric_limits<int>::max()`. -/
def INT_MAX : Int := 2147483647

/-- Conversion of an integer value to `int`. -/
def toInt32 (x : Int) : Int := (x + 2 ^ 31) % 2 ^ 32 - 2 ^ 31

/-- Conversion of an integer value to `qlonglong`. -/
def toInt64 (x : Int) : Int := (x + 2 ^ 63) % 2 ^ 64 - 2 ^ 63

/-- The kinds of `QVariant` that travel between the dialog and the model. -/
inductive QVariant where
  | invalid : QVariant
  | ofInt (i : Int) : QVariant
  | ofString (s : String) : QVariant
  | ofBool (b : Bool) : QVariant
deriving DecidableEq, Repr

/-- Library behaviour and build switches the handlers depend on, taken as given:
`tr`, `QString::toInt`, `QString::toLongLong`, the comparison `QVariant == QString`,
whether the build is for macOS and whether a system tray is available. -/
structure Env where
  tr : String → String
  toInt : String → Int
  toLongLong : String → Int
  variantEqualsText : QVariant → String → Bool
  Q_OS_MAC : Bool
  isSystemTrayAvailable : Bool

/-- The conversion `QVariant::toInt()`. -/
def QVariant.toInt (env : Env) : QVariant → Int
  | QVariant.ofInt i => toInt32 i
  | QVariant.ofString s => env.toInt s
  | QVariant.ofBool b => if b then 1 else 0
  | QVariant.invalid => 0

/-- The conversion `QVariant::toLongLong()`. -/
def QVariant.toLongLong (env : Env) : QVariant → Int
  | QVariant.ofInt i => toInt64 i
  | QVariant.ofString s => env.toLongLong s
  | QVariant.ofBool b => if b then 1 else 0
  | QVariant.invalid => 0

/-- The conversion `QVariant::toString()`. -/
def QVariant.toString : QVariant → String
  | QVariant.ofInt i => ToString.toString i
  | QVariant.ofString s => s
  | QVariant.ofBool b => if b then "true" else "false"
  | QVariant.invalid => ""

/-- The rows of `OptionsModel` the dialog names. -/
inductive OptionID where
  | StartAtStartup | ThreadsScriptVerif | DatabaseCache | PruneMiB
  | SpendZeroConfChange | CoinControlFeatures | addresstype
  | NetworkPort | MapPortUPnP | Listen
  | ProxyUse | ProxyIP | ProxyPort | ProxyUseTor | ProxyIPTor | ProxyPortTor
  | maxuploadtarget | peerbloomfilters | peercfilters
  | mempoolreplacement | maxorphantx | maxmempool | mempoolexpiry
  | rejectunknownscripts | bytespersigop | bytespersigopstrict
  | limitancestorcount | limitancestorsize
  | HideTrayIcon | MinimizeToTray | MinimizeOnClose
  | Language | DisplayUnit | DisplayAddresses | ThirdPartyTxUrls
deriving DecidableEq, Repr

/-- What the dialog reads from the options model: `isRestartRequired()` and
`data(index(row, 0), Qt::EditRole)`, the row being `none` for the section -1 of a widget
without mapping. -/
structure OptionsModel where
  isRestartRequired : Bool
  data : Option OptionID → QVariant

/-- The enumeration `Qt::CheckState`. -/
inductive CheckState where
  | Unchecked | PartiallyChecked | Checked
deriving DecidableEq, Repr

/-- A `QCheckBox`: its check state and whether it is tristate. -/
structure QCheckBox where
  checkState : CheckState
  tristate : Bool
deriving DecidableEq, Repr

/-- The call `setChecked(checked)`: the box ends up checked or unchecked. -/
def QCheckBox.setChecked (c : QCheckBox) (checked : Bool) : QCheckBox :=
  { c with checkState := if checked then CheckState.Checked else CheckState.Unchecked }

/-- The call `setTristate()`. -/
def QCheckBox.setTristate (c : QCheckBox) : QCheckBox := { c with tristate := true }

/-- The call `setCheckState(state)`; a partial check makes the box tristate. -/
def QCheckBox.setCheckState (c : QCheckBox) (state : CheckState) : QCheckBox :=
  { checkState := state
    tristate := if state = CheckState.PartiallyChecked then true else c.tristate }

/-- The query `isChecked()`: true unless the box is unchecked. -/
def QCheckBox.isChecked (c : QCheckBox) : Bool :=
  match c.checkState with
  | CheckState.Unchecked => false
  | _ => true

/-- A `QSpinBox`: its range, its value and whether it is enabled. -/
structure QSpinBox where
  minimum : Int
  maximum : Int
  value : Int
  enabled : Bool
deriving DecidableEq, Repr

/-- The value `v` brought into the range of the box. -/
def QSpinBox.bound (b : QSpinBox) (v : Int) : Int :=
  if v < b.minimum then b.minimum else if b.maximum < v then b.maximum else v

/-- The call `setRange(minimum, maximum)`: a maximum below the minimum is raised to it, and
the value is brought into the new range. -/
def QSpinBox.setRange (b : QSpinBox) (minimum maximum : Int) : QSpinBox :=
  let b := { b with minimum := minimum, maximum := if minimum < maximum then maximum else minimum }
  { b with value := b.bound b.value }

/-- The call `setMinimum(minimum)`. -/
def QSpinBox.setMinimum (b : QSpinBox) (minimum : Int) : QSpinBox :=
  b.setRange minimum (if minimum < b.maximum then b.maximum else minimum)

/-- The call `setMaximum(maximum)`. -/
def QSpinBox.setMaximum (b : QSpinBox) (maximum : Int) : QSpinBox :=
  b.setRange (if b.minimum < maximum then b.minimum else maximum) maximum

/-- The call `setValue(v)`: the value is brought into the range. -/
def QSpinBox.setValue (b : QSpinBox) (v : Int) : QSpinBox := { b with value := b.bound v }

/-- The call `setEnabled(on)`. -/
def QSpinBox.setEnabled (b : QSpinBox) (enable : Bool) : QSpinBox :=
  { b with enabled := enable }

/-- A `QRadioButton`: its object name and whether it is checked. -/
structure QRadioButton where
  objectName : String
  checked : Bool
deriving DecidableEq, Repr

/-- A combo box: its items (text and data) and the current index, -1 for none. -/
structure QComboBox where
  items : List (String × QVariant)
  currentIndex : Int
deriving DecidableEq, Repr

/-- The query `count()`. -/
def QComboBox.count (c : QComboBox) : Int := (c.items.length : Int)

/-- The call `addItem(text, data)`; the first item of an empty box becomes current. -/
def QComboBox.addItem (c : QComboBox) (text : String) (data : QVariant) : QComboBox :=
  { items := c.items ++ [(text, data)]
    currentIndex := if c.items.isEmpty then 0 else c.currentIndex }

/-- The query `findData(data)`: the index of the first item holding `data`, else -1. -/
def QComboBox.findData (c : QComboBox) (data : QVariant) : Int :=
  match c.items.findIdx? (fun item => item.2 = data) with
  | some i => (i : Int)
  | none => -1

/-- The call `setCurrentIndex(index)`; an index out of range selects nothing. -/
def QComboBox.setCurrentIndex (c : QComboBox) (index : Int) : QComboBox :=
  { c with currentIndex := if 0 ≤ index ∧ index < c.count then index else -1 }

/-- The query `itemData(index)`, invalid when the index is out of range. -/
def QComboBox.itemData (c : QComboBox) (index : Int) : QVariant :=
  if index < 0 then QVariant.invalid
  else match c.items.get? index.toNat with
    | some item => item.2
    | none => QVariant.invalid

/-- A `QLineEdit`: object name, text, whether its validator accepts the text, and whether it
is enabled. -/
structure QLineEdit where
  objectName : String
  text : String
  hasAcceptableInput : Bool
  enabled : Bool
deriving DecidableEq, Repr

/-- A child object of a tab page: a line edit, or anything else (for which
`qobject_cast<QLineEdit*>` yields null). -/
inductive Child where
  | lineEdit (w : QLineEdit) : Child
  | other (objectName : String) : Child
deriving DecidableEq, Repr

/-- A `QLabel`: its text and style sheet. -/
structure QLabel where
  text : String
  styleSheet : String
deriving DecidableEq, Repr

/-- The `QDataWidgetMapper`: which widget (by object name) is mapped to which row. -/
structure QDataWidgetMapper where
  mappings : List (String × OptionID)
deriving DecidableEq, Repr

/-- The call `addMapping(widget, section)`: a widget has at most one mapping. -/
def QDataWidgetMapper.addMapping (m : QDataWidgetMapper) (widget : String)
    (section_ : OptionID) : QDataWidgetMapper :=
  { mappings := m.mappings.filter (fun entry => entry.1 ≠ widget) ++ [(widget, section_)] }

/-- The query `mappedSection(widget)`, `none` standing for -1. -/
def QDataWidgetMapper.mappedSection (m : QDataWidgetMapper) (widget : String) :
    Option OptionID :=
  (m.mappings.find? (fun entry => entry.1 = widget)).map Prod.snd

/-- The two validated proxy address fields, as pointers to compare. -/
inductive ProxyWidget where
  | proxyIp | proxyIpTor
deriving DecidableEq, Repr

/-- The widgets of `Ui::OptionsDialog` (and the members of the dialog) the embedded handlers
read or write. `tabs` lists, per page of the tab widget, the children of the page. -/
structure Ui where
  tabs : List (List Child)
  prune : QCheckBox
  pruneSize : QSpinBox
  layoutAddressType : List (Option QRadioButton)
  maxuploadtargetCheckbox : QCheckBox
  maxuploadtarget : QSpinBox
  mempoolreplacement : QComboBox
  proxyIpValid : Bool
  proxyIpTorValid : Bool
  proxyPort : QLineEdit
  proxyPortTor : QLineEdit
  okButtonEnabled : Bool
  statusLabel : QLabel
  clearTimerArmed : Bool
deriving DecidableEq, Repr

/-- The query `isValid()` of a proxy address field. -/
def Ui.isValid (ui : Ui) : ProxyWidget → Bool
  | ProxyWidget.proxyIp => ui.proxyIpValid
  | ProxyWidget.proxyIpTor => ui.proxyIpTorValid

/-- What a handler does to the world outside the widgets above, in order. -/
inductive Effect where
  | setCurrentWidget (tab : Nat) : Effect
  | setFocus (lineedit : String) : Effect
  | selectAll (lineedit : String) : Effect
  | critical (title : String) (text : String) : Effect
  | setData (row : OptionID) (value : QVariant) : Effect
  | submit : Effect
  | accept : Effect
  | updateDefaultProxyNets : Effect
deriving DecidableEq, Repr

/-- Whether an effect writes to the options model. -/
def Effect.writesModel : Effect → Bool
  | Effect.setData _ _ => true
  | Effect.submit => true
  | _ => false

/-- The values written to `row` by `setData`, in order. -/
def writesTo (row : OptionID) (effects : List Effect) : List QVariant :=
  effects.filterMap (fun e =>
    match e with
    | Effect.setData r value => if r = row then some value else none
    | _ => none)

/-- The parts of the constructor that initialise the widgets above: the prune size and the
two proxy port fields start disabled (lines 95, 113, 117), the upload target gets its range
(lines 128-129) and the replacement combo box its three items (lines 140-143). -/
def construct (ui : Ui) : Ui :=
  let ui := { ui with pruneSize := ui.pruneSize.setEnabled false }
  let ui := { ui with proxyPort := { ui.proxyPort with enabled := false } }
  let ui := { ui with proxyPortTor := { ui.proxyPortTor with enabled := false } }
  let ui := { ui with maxuploadtarget := ui.maxuploadtarget.setMinimum 144 }
  let ui := { ui with maxuploadtarget := ui.maxuploadtarget.setMaximum INT_MAX }
  let box : QComboBox := { items := [], currentIndex := -1 }
  let box := box.addItem "never" (QVariant.ofString "never")
  let box := box.addItem "with a higher mining fee, and opt-in" (QVariant.ofString "fee,optin")
  let box := box.addItem "with a higher mining fee (no opt-out)" (QVariant.ofString "fee,-optin")
  { ui with mempoolreplacement := box }

/-- The handler `OptionsDialog::setOkButtonState`. -/
def setOkButtonState (ui : Ui) (fState : Bool) : Ui := { ui with okButtonEnabled := fState }

/-- The handler `OptionsDialog::showRestartWarning`; the single-shot timer of the
non-persistent case is recorded as armed. -/
def showRestartWarning (env : Env) (ui : Ui) (fPersistent : Bool) : Ui :=
  let ui := { ui with statusLabel := { ui.statusLabel with styleSheet := "QLabel \x7b color: red; \x7d" } }
  if fPersistent then
    { ui with statusLabel :=
        { ui.statusLabel with text := env.tr "Client restart required to activate changes." } }
  else
    let ui := { ui with statusLabel :=
        { ui.statusLabel with text := env.tr "This change would require a client restart." } }
    { ui with clearTimerArmed := true }

/-- The handler `OptionsDialog::clearStatusLabel`; `model` is `none` for a null pointer. -/
def clearStatusLabel (env : Env) (model : Option OptionsModel) (ui : Ui) : Ui :=
  let ui := { ui with statusLabel := { ui.statusLabel with text := "" } }
  match model with
  | some m => if m.isRestartRequired then showRestartWarning env ui true else ui
  | none => ui

/-- The text `clearStatusLabel` leaves in the status label: nothing, or the restart notice
when there is a model and it requires a restart. -/
def clearedStatusText (env : Env) (model : Option OptionsModel) : String :=
  match model with
  | some m =>
    if m.isRestartRequired then env.tr "Client restart required to activate changes." else ""
  | none => ""

/-- The handler `OptionsDialog::updateProxyValidationState`. -/
def updateProxyValidationState (env : Env) (model : Option OptionsModel) (ui : Ui) : Ui :=
  let pUiProxyIp := ProxyWidget.proxyIp
  let otherProxyWidget :=
    if pUiProxyIp = ProxyWidget.proxyIpTor then ProxyWidget.proxyIp else ProxyWidget.proxyIpTor
  if ui.isValid pUiProxyIp && (!ui.proxyPort.enabled || decide (env.toInt ui.proxyPort.text > 0))
      && (!ui.proxyPortTor.enabled || decide (env.toInt ui.proxyPortTor.text > 0)) then
    -- only enable ok button if both proxys are valid
    let ui := setOkButtonState ui (ui.isValid otherProxyWidget)
    clearStatusLabel env model ui
  else
    let ui := setOkButtonState ui false
    let ui := { ui with statusLabel := { ui.statusLabel with styleSheet := "QLabel \x7b color: red; \x7d" } }
    { ui with statusLabel :=
        { ui.statusLabel with text := env.tr "The supplied proxy address is invalid." } }

/-- The handler `OptionsDialog::setMapper`: the new widget states and the mapper with its
mappings. The `toggled` connections of the two check boxes only switch `enabled` flags,
which the handler sets itself right after; the mutual exclusion among the radio buttons is
left out. -/
def setMapper (env : Env) (model : OptionsModel) (ui : Ui) (mapper : QDataWidgetMapper) :
    Ui × QDataWidgetMapper :=
  /- Main -/
  let mapper := mapper.addMapping "bitcoinAtStartup" OptionID.StartAtStartup
  let mapper := mapper.addMapping "threadsScriptVerif" OptionID.ThreadsScriptVerif
  let mapper := mapper.addMapping "databaseCache" OptionID.DatabaseCache
  let current_prune := (model.data (some OptionID.PruneMiB)).toLongLong env
  let ui :=
    if current_prune = 0 then
      let ui := { ui with prune := ui.prune.setChecked false }
      { ui with pruneSize := ui.pruneSize.setEnabled false }
    else if current_prune = 1 then
      -- Manual pruning
      let ui := { ui with prune := ui.prune.setTristate }
      let ui := { ui with prune := ui.prune.setCheckState CheckState.PartiallyChecked }
      { ui with pruneSize := ui.pruneSize.setEnabled false }
    else
      let ui := { ui with prune := ui.prune.setChecked true }
      let ui := { ui with pruneSize := ui.pruneSize.setEnabled true }
      { ui with pruneSize := ui.pruneSize.setValue (toInt32 current_prune) }
  /- Wallet -/
  let mapper := mapper.addMapping "spendZeroConfChange" OptionID.SpendZeroConfChange
  let mapper := mapper.addMapping "coinControlFeatures" OptionID.CoinControlFeatures
  let radio_name_lower :=
    ("addresstype" ++ ((model.data (some OptionID.addresstype)).toString).toLower).replace "-" "_"
  let ui := { ui with layoutAddressType := ui.layoutAddressType.map (fun (item : Option QRadioButton) =>
    match item with
    | some radio => some { radio with checked := radio.objectName.toLower == radio_name_lower }
    | none => none) }
  /- Network -/
  let mapper := mapper.addMapping "networkPort" OptionID.NetworkPort
  let mapper := mapper.addMapping "mapPortUpnp" OptionID.MapPortUPnP
  let mapper := mapper.addMapping "allowIncoming" OptionID.Listen
  let mapper := mapper.addMapping "connectSocks" OptionID.ProxyUse
  let mapper := mapper.addMapping "proxyIp" OptionID.ProxyIP
  let mapper := mapper.addMapping "proxyPort" OptionID.ProxyPort
  let mapper := mapper.addMapping "connectSocksTor" OptionID.ProxyUseTor
  let mapper := mapper.addMapping "proxyIpTor" OptionID.ProxyIPTor
  let mapper := mapper.addMapping "proxyPortTor" OptionID.ProxyPortTor
  let current_maxuploadtarget := (model.data (some OptionID.maxuploadtarget)).toInt env
  let ui :=
    if current_maxuploadtarget = 0 then
      let ui := { ui with maxuploadtargetCheckbox := ui.maxuploadtargetCheckbox.setChecked false }
      let ui := { ui with maxuploadtarget := ui.maxuploadtarget.setEnabled false }
      { ui with maxuploadtarget := ui.maxuploadtarget.setValue ui.maxuploadtarget.minimum }
    else
      let ui :=
        if current_maxuploadtarget < ui.maxuploadtarget.minimum then
          { ui with maxuploadtarget := ui.maxuploadtarget.setMinimum current_maxuploadtarget }
        else ui
      let ui := { ui with maxuploadtargetCheckbox := ui.maxuploadtargetCheckbox.setChecked true }
      let ui := { ui with maxuploadtarget := ui.maxuploadtarget.setEnabled true }
      { ui with maxuploadtarget := ui.maxuploadtarget.setValue current_maxuploadtarget }
  let mapper := mapper.addMapping "peerbloomfilters" OptionID.peerbloomfilters
  let mapper := mapper.addMapping "peercfilters" OptionID.peercfilters
  /- Mempool tab -/
  let current_mempoolreplacement := model.data (some OptionID.mempoolreplacement)
  let current_mempoolreplacement_index := ui.mempoolreplacement.findData current_mempoolreplacement
  let (ui, current_mempoolreplacement_index) :=
    if current_mempoolreplacement_index = -1 then
      let box := ui.mempoolreplacement.addItem current_mempoolreplacement.toString
        current_mempoolreplacement
      let ui := { ui with mempoolreplacement := box }
      (ui, ui.mempoolreplacement.count - 1)
    else (ui, current_mempoolreplacement_index)
  let ui := { ui with mempoolreplacement :=
    ui.mempoolreplacement.setCurrentIndex current_mempoolreplacement_index }
  let mapper := mapper.addMapping "maxorphantx" OptionID.maxorphantx
  let mapper := mapper.addMapping "maxmempool" OptionID.maxmempool
  let mapper := mapper.addMapping "mempoolexpiry" OptionID.mempoolexpiry
  let mapper := mapper.addMapping "rejectunknownscripts" OptionID.rejectunknownscripts
  let mapper := mapper.addMapping "bytespersigop" OptionID.bytespersigop
  let mapper := mapper.addMapping "bytespersigopstrict" OptionID.bytespersigopstrict
  let mapper := mapper.addMapping "limitancestorcount" OptionID.limitancestorcount
  let mapper := mapper.addMapping "limitancestorsize" OptionID.limitancestorsize
  /- Window -/
  let mapper :=
    if env.Q_OS_MAC then mapper
    else
      let mapper :=
        if env.isSystemTrayAvailable then
          let mapper := mapper.addMapping "hideTrayIcon" OptionID.HideTrayIcon
          mapper.addMapping "minimizeToTray" OptionID.MinimizeToTray
        else mapper
      mapper.addMapping "minimizeOnClose" OptionID.MinimizeOnClose
  /- Display -/
  let mapper := mapper.addMapping "lang" OptionID.Language
  let mapper := mapper.addMapping "unit" OptionID.DisplayUnit
  let mapper := mapper.addMapping "displayAddresses" OptionID.DisplayAddresses
  let mapper := mapper.addMapping "thirdPartyTxUrls" OptionID.ThirdPartyTxUrls
  (ui, mapper)

/-- The constant `MiB_BYTES` of `setModel`. -/
def MiB_BYTES : Nat := 1024 * 1024

/-- The constant `nMinDiskSpace` of `setModel`, in `uint64_t` arithmetic;
`MIN_DISK_SPACE_FOR_BLOCK_FILES` (validation.h) is a parameter. -/
def nMinDiskSpace (MIN_DISK_SPACE_FOR_BLOCK_FILES : Nat) : Nat :=
  ((MIN_DISK_SPACE_FOR_BLOCK_FILES + MiB_BYTES - 1) % 2 ^ 64) / MiB_BYTES

/-- The handler `OptionsDialog::setModel`, as far as the widgets above go (lines 279-296);
filling the mapped widgets (`mapper->toFirst()`) is outside them. -/
def setModel (env : Env) (MIN_DISK_SPACE_FOR_BLOCK_FILES : Nat) (model : Option OptionsModel)
    (ui : Ui) (mapper : QDataWidgetMapper) : Ui × QDataWidgetMapper :=
  match model with
  | some m =>
    let ui := if m.isRestartRequired then showRestartWarning env ui true else ui
    let ui := { ui with pruneSize :=
      ui.pruneSize.setRange (toInt32 (nMinDiskSpace MIN_DISK_SPACE_FOR_BLOCK_FILES)) INT_MAX }
    setMapper env m ui mapper
  | none => (ui, mapper)

/-- The inner loop of `on_okButton_clicked` over the children of one tab: the first line edit
whose input is not acceptable and whose text differs from the model's value for its row. -/
def firstRejected (env : Env) (model : OptionsModel) (mapper : QDataWidgetMapper) :
    List Child → Option QLineEdit
  | [] => none
  | Child.other _ :: rest => firstRejected env model mapper rest
  | Child.lineEdit lineedit :: rest =>
    if !lineedit.hasAcceptableInput then
      let row := mapper.mappedSection lineedit.objectName
      if env.variantEqualsText (model.data row) lineedit.text then
        -- Allow unchanged fields through
        firstRejected env model mapper rest
      else some lineedit
    else firstRejected env model mapper rest

/-- The outer loop of `on_okButton_clicked` over the tabs, from index `i` on. -/
def scanTabs (env : Env) (model : OptionsModel) (mapper : QDataWidgetMapper) :
    Nat → List (List Child) → Option (Nat × QLineEdit)
  | _, [] => none
  | i, tab :: rest =>
    match firstRejected env model mapper tab with
    | some lineedit => some (i, lineedit)
    | none => scanTabs env model mapper (i + 1) rest

/-- The address type read off the radio buttons (lines 517-526): the last-to-first search
for a checked button named `addressType...`. -/
def new_addresstype (items : List (Option QRadioButton)) : String :=
  match items.reverse.findSome? (fun item =>
    match item with
    | some radio =>
      if radio.objectName.startsWith "addressType" && radio.checked then
        some (((radio.objectName.drop 11).toLower).replace "_" "-")
      else none
    | none => none) with
  | some name => name
  | none => ""

/-- The handler `OptionsDialog::on_okButton_clicked`: what it does, in order. -/
def on_okButton_clicked (env : Env) (model : OptionsModel) (ui : Ui)
    (mapper : QDataWidgetMapper) : List Effect :=
  match scanTabs env model mapper 0 ui.tabs with
  | some (i, lineedit) =>
    [Effect.setCurrentWidget i, Effect.setFocus lineedit.objectName,
      Effect.selectAll lineedit.objectName,
      Effect.critical (env.tr "Invalid setting") (env.tr "The value entered is invalid.")]
  | none =>
    let prunePart :=
      match ui.prune.checkState with
      | CheckState.Unchecked => [Effect.setData OptionID.PruneMiB (QVariant.ofInt 0)]
      | CheckState.PartiallyChecked => [Effect.setData OptionID.PruneMiB (QVariant.ofInt 1)]
      | CheckState.Checked =>
        [Effect.setData OptionID.PruneMiB (QVariant.ofInt ui.pruneSize.value)]
    let addressPart :=
      [Effect.setData OptionID.addresstype
        (QVariant.ofString (new_addresstype ui.layoutAddressType))]
    let uploadPart :=
      if ui.maxuploadtargetCheckbox.isChecked then
        [Effect.setData OptionID.maxuploadtarget (QVariant.ofInt ui.maxuploadtarget.value)]
      else [Effect.setData OptionID.maxuploadtarget (QVariant.ofInt 0)]
    let replacementPart :=
      [Effect.setData OptionID.mempoolreplacement
        (ui.mempoolreplacement.itemData ui.mempoolreplacement.currentIndex)]
    prunePart ++ addressPart ++ uploadPart ++ replacementPart
      ++ [Effect.submit, Effect.accept, Effect.updateDefaultProxyNets]

/-- A dialog as it comes out of `setupUi`, for worked scenarios: one tab holding a label and
the network port field, boxes unchecked, spin boxes at 0 in the range 0..99. -/
def blankUi : Ui :=
  { tabs := [[Child.other "label", Child.lineEdit ⟨"networkPort", "8333", true, true⟩]]
    prune := ⟨CheckState.Unchecked, false⟩
    pruneSize := ⟨0, 99, 0, true⟩
    layoutAddressType := [some ⟨"addressTypeLegacy", false⟩, none, some ⟨"addressTypeBech32", false⟩]
    maxuploadtargetCheckbox := ⟨CheckState.Unchecked, false⟩
    maxuploadtarget := ⟨0, 99, 0, true⟩
    mempoolreplacement := ⟨[], -1⟩
    proxyIpValid := true
    proxyIpTorValid := true
    proxyPort := ⟨"proxyPort", "9050", true, false⟩
    proxyPortTor := ⟨"proxyPortTor", "9050", true, false⟩
    okButtonEnabled := true
    statusLabel := ⟨"", ""⟩
    clearTimerArmed := false }

/-- The blank dialog with an invalid Tor proxy address (both port fields disabled). -/
def torInvalidUi : Ui := { blankUi with proxyIpTorValid := false }

/-- Library behaviour for worked scenarios: no translation, decimal parsing, and a variant
equal to a text when its string form is that text. -/
def plainEnv : Env :=
  { tr := fun s => s
    toInt := fun s => (s.toInt?).getD 0
    toLongLong := fun s => (s.toInt?).getD 0
    variantEqualsText := fun v s => v.toString == s
    Q_OS_MAC := false
    isSystemTrayAvailable := true }

/-- An options model for worked scenarios: prune target and upload target as given, the
network port 8333, everything else empty. -/
def modelWith (prune upload : Int) : OptionsModel :=
  { isRestartRequired := false
    data := fun row =>
      match row with
      | some OptionID.PruneMiB => QVariant.ofInt prune
      | some OptionID.maxuploadtarget => QVariant.ofInt upload
      | some OptionID.NetworkPort => QVariant.ofString "8333"
      | some OptionID.addresstype => QVariant.ofString "bech32"
      | some OptionID.mempoolreplacement => QVariant.ofString "never"
      | _ => QVariant.invalid }

end OptionsDialog

namespace MempoolStats

/-! ## The handler: results -/

theorem foldl_pushSample (samples : mempoolSamples_t) (acc : List UniValue) :
    samples.foldl pushSample (UniValue.VARR acc)
      = UniValue.VARR (acc ++ samples.map flatSample) := by
  induction samples generalizing acc with
  | nil => simp
  | cons x xs ih =>
    have hstep : pushSample (UniValue.VARR acc) x = UniValue.VARR (acc ++ [flatSample x]) := by
      simp [pushSample, UniValue.push_back, flatSample]
    simp [List.foldl_cons, hstep, ih]

theorem getmempoolstats_accepted (helpText : String) (store : Nat → Nat → RangeReply)
    (request : JSONRPCRequest) (hHelp : request.fHelp = false)
    (hParams : request.params.size = 0) :
    getmempoolstats helpText store request = Except.ok (resultObject (store 0 0)) := by
  have h := foldl_pushSample (store 0 0).samples []
  simp only [List.nil_append] at h
  simp [getmempoolstats, hHelp, hParams, h, resultObject, UniValue.pushKV, UniValue.replaceKey]

theorem getmempoolstats_rejected (helpText : String) (store : Nat → Nat → RangeReply)
    (request : JSONRPCRequest) (h : request.fHelp = true ∨ request.params.size ≠ 0) :
    getmempoolstats helpText store request = Except.error helpText := by
  rcases h with h | h <;> simp [getmempoolstats, h]

/-- C1: for an accepted request the "samples" entry of the result is an array with exactly one
item per sample the store returned, in the same order, and the item for a sample is the
4-element array of its m_time_delta converted to unsigned 64-bit, its m_tx_count, its
m_dyn_mem_usage and its m_min_fee_per_k, the three metrics unchanged. -/
theorem getmempoolstats_samples_encoding (helpText : String) (store : Nat → Nat → RangeReply)
    (request : JSONRPCRequest) (hHelp : request.fHelp = false)
    (hParams : request.params.size = 0) :
    ∃ result items, getmempoolstats helpText store request = Except.ok result
      ∧ result.find "samples" = some (UniValue.VARR items)
      ∧ items.length = (store 0 0).samples.length
      ∧ items = (store 0 0).samples.map (fun sample =>
          UniValue.VARR [UniValue.VNUM (sample.m_time_delta % (2 ^ 64 : Int)),
            UniValue.VNUM sample.m_tx_count, UniValue.VNUM sample.m_dyn_mem_usage,
            UniValue.VNUM sample.m_min_fee_per_k]) := by
  refine ⟨resultObject (store 0 0), (store 0 0).samples.map flatSample,
    getmempoolstats_accepted helpText store request hHelp hParams, ?_, ?_, ?_⟩
  · simp [resultObject, UniValue.find, List.find?]
  · simp
  · rfl

theorem getmempoolstats_samples_encoding_witness :
    ∃ result items, getmempoolstats "help" (fun _ _ => twoSampleReply) plainRequest
        = Except.ok result
      ∧ result.find "samples" = some (UniValue.VARR items)
      ∧ items.length = twoSampleReply.samples.length
      ∧ items = twoSampleReply.samples.map (fun sample =>
          UniValue.VARR [UniValue.VNUM (sample.m_time_delta % (2 ^ 64 : Int)),
            UniValue.VNUM sample.m_tx_count, UniValue.VNUM sample.m_dyn_mem_usage,
            UniValue.VNUM sample.m_min_fee_per_k]) :=
  getmempoolstats_samples_encoding "help" (fun _ _ => twoSampleReply) plainRequest rfl rfl

/-- C2: for an accepted request the returned object has exactly the keys time_from, time_to,
samples, in that order; time_from and time_to hold the bounds as the store's range query left
them, and samples holds the encoded sample array. -/
theorem getmempoolstats_result_object (helpText : String) (store : Nat → Nat → RangeReply)
    (request : JSONRPCRequest) (hHelp : request.fHelp = false)
    (hParams : request.params.size = 0) :
    ∃ result, getmempoolstats helpText store request = Except.ok result
      ∧ result.getKeys = ["time_from", "time_to", "samples"]
      ∧ result.getValues = [UniValue.VNUM ((store 0 0).timeFrom : Int),
          UniValue.VNUM ((store 0 0).timeTo : Int),
          (store 0 0).samples.foldl pushSample (UniValue.VARR [])] := by
  refine ⟨_, getmempoolstats_accepted helpText store request hHelp hParams, ?_, ?_⟩
  · simp [resultObject, UniValue.getKeys]
  · have h := foldl_pushSample (store 0 0).samples []
    simp only [List.nil_append] at h
    simp [resultObject, UniValue.getValues, h]

theorem getmempoolstats_result_object_witness :
    ∃ result, getmempoolstats "help" (fun _ _ => twoSampleReply) plainRequest = Except.ok result
      ∧ result.getKeys = ["time_from", "time_to", "samples"]
      ∧ result.getValues = [UniValue.VNUM (1600000000 : Int), UniValue.VNUM (1600000060 : Int),
          twoSampleReply.samples.foldl pushSample (UniValue.VARR [])] :=
  getmempoolstats_result_object "help" (fun _ _ => twoSampleReply) plainRequest rfl rfl

/-- C5: getmempoolstats takes no arguments: it raises the runtime_error carrying the help text
exactly when the help flag is set or the request has a non-zero number of parameters, and for
a request with no help flag and zero parameters it returns the result object; its row of the
dispatch table names no arguments. -/
theorem getmempoolstats_raises_iff (helpText : String) (store : Nat → Nat → RangeReply)
    (request : JSONRPCRequest) :
    ((∃ message, getmempoolstats helpText store request = Except.error message)
        ↔ (request.fHelp = true ∨ request.params.size ≠ 0))
      ∧ (∀ message, getmempoolstats helpText store request = Except.error message →
          message = helpText)
      ∧ ((request.fHelp = false ∧ request.params.size = 0) →
          getmempoolstats helpText store request = Except.ok (resultObject (store 0 0)))
      ∧ commands.map (fun c => (c.name, c.argNames)) = [("getmempoolstats", [])] := by
  by_cases h : request.fHelp = true ∨ request.params.size ≠ 0
  · have hr := getmempoolstats_rejected helpText store request h
    refine ⟨⟨fun _ => h, fun _ => ⟨helpText, hr⟩⟩, ?_, ?_, rfl⟩
    · intro message hm
      rw [hr] at hm
      exact (Except.error.inj hm).symm
    · rintro ⟨h1, h2⟩
      rcases h with h | h
      · rw [h1] at h
        cases h
      · exact absurd h2 h
  · have h1 : request.fHelp = false := by
      cases hf : request.fHelp
      · rfl
      · exact absurd (Or.inl hf) h
    have h2 : request.params.size = 0 := by
      by_contra hne
      exact h (Or.inr hne)
    have ha := getmempoolstats_accepted helpText store request h1 h2
    refine ⟨⟨?_, fun hh => absurd hh h⟩, ?_, fun _ => ha, rfl⟩
    · rintro ⟨message, hm⟩
      rw [ha] at hm
      cases hm
    · intro message hm
      rw [ha] at hm
      cases hm

theorem getmempoolstats_raises_iff_witness :
    getmempoolstats "help" (fun _ _ => twoSampleReply) plainRequest
        = Except.ok (resultObject twoSampleReply)
      ∧ getmempoolstats "help" (fun _ _ => twoSampleReply)
          { fHelp := false, params := UniValue.VARR [UniValue.VNUM 1] } = Except.error "help"
      ∧ getmempoolstats "help" (fun _ _ => twoSampleReply)
          { fHelp := true, params := UniValue.VARR [] } = Except.error "help" := by
  refine ⟨(getmempoolstats_raises_iff "help" (fun _ _ => twoSampleReply) plainRequest).2.2.1
    ⟨rfl, rfl⟩, ?_, ?_⟩
  · obtain ⟨message, hm⟩ := (getmempoolstats_raises_iff "help" (fun _ _ => twoSampleReply)
      { fHelp := false, params := UniValue.VARR [UniValue.VNUM 1] }).1.2 (Or.inr (by decide))
    rw [hm, (getmempoolstats_raises_iff "help" (fun _ _ => twoSampleReply)
      { fHelp := false, params := UniValue.VARR [UniValue.VNUM 1] }).2.1 message hm]
  · obtain ⟨message, hm⟩ := (getmempoolstats_raises_iff "help" (fun _ _ => twoSampleReply)
      { fHelp := true, params := UniValue.VARR [] }).1.2 (Or.inl rfl)
    rw [hm, (getmempoolstats_raises_iff "help" (fun _ _ => twoSampleReply)
      { fHelp := true, params := UniValue.VARR [] }).2.1 message hm]

/-- C6: when the range query returns no samples and leaves both bounds at 0, an accepted
request does not raise: the handler returns time_from = 0, time_to = 0 and an empty samples
array. -/
theorem getmempoolstats_empty_store (helpText : String) (store : Nat → Nat → RangeReply)
    (request : JSONRPCRequest) (hHelp : request.fHelp = false)
    (hParams : request.params.size = 0)
    (hEmpty : store 0 0 = { samples := [], timeFrom := 0, timeTo := 0 }) :
    getmempoolstats helpText store request
      = Except.ok (UniValue.VOBJ [("time_from", UniValue.VNUM 0), ("time_to", UniValue.VNUM 0),
          ("samples", UniValue.VARR [])]) := by
  rw [getmempoolstats_accepted helpText store request hHelp hParams, hEmpty]
  rfl

theorem getmempoolstats_empty_store_witness :
    getmempoolstats "help" (mempoolGetValuesInRange (SampleStore.empty 3)) plainRequest
      = Except.ok (UniValue.VOBJ [("time_from", UniValue.VNUM 0), ("time_to", UniValue.VNUM 0),
          ("samples", UniValue.VARR [])]) :=
  getmempoolstats_empty_store "help" (mempoolGetValuesInRange (SampleStore.empty 3))
    plainRequest rfl rfl rfl

/-! ## The store: capacity and eviction -/

theorem append_capacity (s : SampleStore) (x : Sample) :
    (s.append x).capacity = s.capacity := by
  unfold SampleStore.append
  simp only []
  split <;> rfl

theorem append_size_le (s : SampleStore) (x : Sample) (h : s.size ≤ s.capacity) :
    (s.append x).size ≤ s.capacity := by
  unfold SampleStore.size at *
  unfold SampleStore.append
  simp only []
  split
  · simp
    exact h
  · rename_i hnot
    simp at hnot ⊢
    exact hnot

theorem foldl_append_invariant (xs : List Sample) (s : SampleStore) (h : s.size ≤ s.capacity) :
    (xs.foldl SampleStore.append s).size ≤ s.capacity
      ∧ (xs.foldl SampleStore.append s).capacity = s.capacity := by
  induction xs generalizing s with
  | nil => exact ⟨h, rfl⟩
  | cons x xs ih =>
    have hcap := append_capacity s x
    have hsize := append_size_le s x h
    have := ih (s.append x) (by rw [hcap]; exact hsize)
    simpa [List.foldl_cons, hcap] using this

/-- C8: starting from the empty store of capacity N, after every append of every sequence of
appends (that is, after every initial segment of the sequence) the store holds at most N
samples. -/
theorem store_size_le_capacity (capacity : Nat) (xs : List Sample) (n : Nat) :
    ((xs.take n).foldl SampleStore.append (SampleStore.empty capacity)).size ≤ capacity
      ∧ (xs.foldl SampleStore.append (SampleStore.empty capacity)).size ≤ capacity := by
  have h0 : (SampleStore.empty capacity).size ≤ (SampleStore.empty capacity).capacity := by
    simp [SampleStore.empty, SampleStore.size]
  exact ⟨(foldl_append_invariant (xs.take n) _ h0).1, (foldl_append_invariant xs _ h0).1⟩

/-- C9: an append to a full store drops exactly its oldest sample: the contents become the
previous contents without their first element, followed by the new sample; an append to a
store that is not full drops nothing; with capacity 3, appending four samples in turn leaves
the last three in order. -/
theorem append_evicts_oldest_only (s : SampleStore) (x : Sample) :
    (∀ oldest rest, s.samples = oldest :: rest → s.size = s.capacity →
        (s.append x).samples = rest ++ [x])
      ∧ (s.size < s.capacity → (s.append x).samples = s.samples ++ [x])
      ∧ (∀ a b c d : Sample,
          ([a, b, c, d].foldl SampleStore.append (SampleStore.empty 3)).samples = [b, c, d]) := by
  refine ⟨?_, ?_, ?_⟩
  · intro oldest rest hs hfull
    unfold SampleStore.size at hfull
    unfold SampleStore.append
    simp only []
    rw [if_pos (by rw [← hfull]; simp)]
    simp [hs]
  · intro hlt
    unfold SampleStore.size at hlt
    unfold SampleStore.append
    simp only []
    rw [if_neg (by simp; omega)]
  · intro a b c d
    simp [SampleStore.append, SampleStore.empty]

theorem append_evicts_oldest_only_witness :
    ((SampleStore.mk 3 [sampleAt 1, sampleAt 2, sampleAt 3]).append (sampleAt 4)).samples
        = [sampleAt 2, sampleAt 3] ++ [sampleAt 4]
      ∧ ((SampleStore.mk 3 [sampleAt 1, sampleAt 2]).append (sampleAt 3)).samples
        = [sampleAt 1, sampleAt 2] ++ [sampleAt 3] :=
  ⟨(append_evicts_oldest_only (SampleStore.mk 3 [sampleAt 1, sampleAt 2, sampleAt 3])
      (sampleAt 4)).1 (sampleAt 1) [sampleAt 2, sampleAt 3] rfl rfl,
    (append_evicts_oldest_only (SampleStore.mk 3 [sampleAt 1, sampleAt 2])
      (sampleAt 3)).2.1 (by decide)⟩

/-! ## The store: range queries -/

theorem searchFirst_spec (p : Nat → Bool)
    (hmono : ∀ i j, i ≤ j → p i = true → p j = true) :
    ∀ (fuel lo hi : Nat), lo ≤ hi → hi - lo ≤ fuel →
      lo ≤ searchFirst p fuel lo hi ∧ searchFirst p fuel lo hi ≤ hi
        ∧ (∀ i, lo ≤ i → i < searchFirst p fuel lo hi → p i = false)
        ∧ (∀ i, searchFirst p fuel lo hi ≤ i → i < hi → p i = true) := by
  intro fuel
  induction fuel with
  | zero =>
    intro lo hi hle hfuel
    have : hi = lo := by omega
    subst this
    simp only [searchFirst]
    exact ⟨le_refl _, le_refl _, fun i h1 h2 => by omega, fun i h1 h2 => by omega⟩
  | succ fuel ih =>
    intro lo hi hle hfuel
    simp only [searchFirst]
    by_cases hlt : lo < hi
    · rw [if_pos hlt]
      have hmid1 : lo ≤ lo + (hi - lo) / 2 := Nat.le_add_right _ _
      have hmid2 : lo + (hi - lo) / 2 < hi := by omega
      by_cases hp : p (lo + (hi - lo) / 2) = true
      · rw [if_pos hp]
        obtain ⟨h1, h2, h3, h4⟩ := ih lo (lo + (hi - lo) / 2) hmid1 (by omega)
        refine ⟨h1, by omega, h3, ?_⟩
        intro i hi1 hi2
        by_cases hc : i < lo + (hi - lo) / 2
        · exact h4 i hi1 hc
        · exact hmono _ i (by omega) hp
      · rw [if_neg hp]
        obtain ⟨h1, h2, h3, h4⟩ := ih (lo + (hi - lo) / 2 + 1) hi (by omega) (by omega)
        refine ⟨by omega, h2, ?_, h4⟩
        intro i hi1 hi2
        by_cases hc : lo + (hi - lo) / 2 + 1 ≤ i
        · exact h3 i hc hi2
        · cases hpi : p i
          · rfl
          · exact absurd (hmono i _ (by omega) hpi) hp
    · rw [if_neg hlt]
      exact ⟨le_refl _, hle, fun i h1 h2 => by omega, fun i h1 h2 => by omega⟩

theorem timeOrdered_get? (xs : List Sample) (h : TimeOrdered xs) (i j : Nat) (a b : Sample)
    (hij : i ≤ j) (ha : xs.get? i = some a) (hb : xs.get? j = some b) :
    a.timestamp ≤ b.timestamp := by
  rcases Nat.eq_or_lt_of_le hij with heq | hlt
  · subst heq
    rw [ha] at hb
    cases hb
    exact le_refl _
  · obtain ⟨hi, hai⟩ := List.get?_eq_some.mp ha
    obtain ⟨hj, hbj⟩ := List.get?_eq_some.mp hb
    have := List.pairwise_iff_getElem.mp h i j hi hj hlt
    simp only [List.get_eq_getElem] at hai hbj
    rw [hai, hbj] at this
    exact this

theorem testAt_mono (xs : List Sample) (h : TimeOrdered xs) (q : Sample → Bool)
    (hq : ∀ a b : Sample, a.timestamp ≤ b.timestamp → q a = true → q b = true) :
    ∀ i j, i ≤ j → testAt xs q i = true → testAt xs q j = true := by
  intro i j hij hi
  unfold testAt at *
  cases hb : xs.get? j with
  | none => rfl
  | some b =>
    cases ha : xs.get? i with
    | none =>
      have h1 : xs.length ≤ i := List.get?_eq_none.mp ha
      have h2 : j < xs.length := (List.get?_eq_some.mp hb).1
      omega
    | some a =>
      rw [ha] at hi
      exact hq a b (timeOrdered_get? xs h i j a b hij ha hb) hi

theorem searchFirst_testAt (xs : List Sample) (h : TimeOrdered xs) (q : Sample → Bool)
    (hq : ∀ a b : Sample, a.timestamp ≤ b.timestamp → q a = true → q b = true)
    (i : Nat) (x : Sample) (hx : xs.get? i = some x) :
    searchFirst (testAt xs q) xs.length 0 xs.length ≤ i ↔ q x = true := by
  obtain ⟨_, _, h3, h4⟩ := searchFirst_spec (testAt xs q) (testAt_mono xs h q hq)
    xs.length 0 xs.length (Nat.zero_le _) (by omega)
  have hi : i < xs.length := (List.get?_eq_some.mp hx).1
  have ht : testAt xs q i = q x := by
    unfold testAt
    rw [hx]
  constructor
  · intro hle
    rw [← ht]
    exact h4 i hle hi
  · intro hqx
    by_contra hnot
    have := h3 i (Nat.zero_le _) (by omega)
    rw [ht, hqx] at this
    cases this

theorem slice_eq_filter (P : Sample → Bool) :
    ∀ (xs : List Sample) (lo hi : Nat),
      (∀ i x, xs.get? i = some x → (P x = true ↔ lo ≤ i ∧ i < hi)) →
      (xs.drop lo).take (hi - lo) = xs.filter P := by
  intro xs
  induction xs with
  | nil => intro lo hi _; simp
  | cons x xs ih =>
    intro lo hi h
    have h0 := h 0 x rfl
    cases lo with
    | zero =>
      cases hi with
      | zero =>
        have hx : P x = false := by
          cases hp : P x
          · rfl
          · have := h0.mp hp
            omega
        have := ih 0 0 (fun i y hy => by
          have := h (i + 1) y (by simpa using hy)
          constructor
          · intro hp
            have := this.mp hp
            omega
          · intro hc
            omega)
        simp [List.filter_cons, hx] at this ⊢
        exact this
      | succ hi =>
        have hx : P x = true := h0.mpr ⟨Nat.le_refl _, Nat.succ_pos _⟩
        have := ih 0 hi (fun i y hy => by
          have := h (i + 1) y (by simpa using hy)
          constructor
          · intro hp
            have := this.mp hp
            omega
          · intro hc
            exact this.mpr (by omega))
        simp [List.filter_cons, hx] at this ⊢
        exact this
    | succ lo =>
      have hx : P x = false := by
        cases hp : P x
        · rfl
        · have := h0.mp hp
          omega
      have := ih lo (hi - 1) (fun i y hy => by
        have := h (i + 1) y (by simpa using hy)
        constructor
        · intro hp
          have := this.mp hp
          omega
        · intro hc
          exact this.mpr (by omega))
      have hsub : hi - (lo + 1) = hi - 1 - lo := by omega
      simp [List.filter_cons, hx, hsub]
      exact this

theorem queryRange_samples_eq_filter (s : SampleStore) (fromTime toTime : Nat)
    (hOrdered : TimeOrdered s.samples) (hRange : fromTime ≤ toTime)
    (hNotOpen : ¬ (fromTime = 0 ∧ toTime = 0)) :
    s.queryRange fromTime toTime = QueryResult.ofSamples
      (s.samples.filter (fun x => decide (fromTime ≤ x.timestamp ∧ x.timestamp ≤ toTime))) := by
  unfold SampleStore.queryRange
  rw [if_neg hNotOpen, if_neg (by omega)]
  simp only []
  congr 1
  apply slice_eq_filter
  intro i x hx
  have hlo := searchFirst_testAt s.samples hOrdered (fun x => decide (fromTime ≤ x.timestamp))
    (fun a b hab ha => by simp at ha ⊢; omega) i x hx
  have hhi := searchFirst_testAt s.samples hOrdered (fun x => decide (toTime < x.timestamp))
    (fun a b hab ha => by simp at ha ⊢; omega) i x hx
  unfold lowerBound upperBound
  simp only [decide_eq_true_eq] at hlo hhi ⊢
  rw [hlo]
  constructor
  · rintro ⟨h1, h2⟩
    refine ⟨h1, ?_⟩
    by_contra hc
    have := hhi.mp (by omega)
    omega
  · rintro ⟨h1, h2⟩
    refine ⟨h1, ?_⟩
    by_contra hc
    have := hhi.mpr (by omega)
    omega

theorem ofSamples_bounds (xs : List Sample) :
    (QueryResult.ofSamples xs).samples = xs
      ∧ (∀ first, xs.head? = some first →
          (QueryResult.ofSamples xs).time_from = first.timestamp)
      ∧ (∀ last, xs.getLast? = some last →
          (QueryResult.ofSamples xs).time_to = last.timestamp) := by
  refine ⟨rfl, ?_, ?_⟩
  · intro first h
    simp [QueryResult.ofSamples, h]
  · intro last h
    simp [QueryResult.ofSamples, h]

theorem queryRange_is_slice (s : SampleStore) (fromTime toTime : Nat) :
    ∃ lo n, (s.queryRange fromTime toTime).samples = (s.samples.drop lo).take n := by
  unfold SampleStore.queryRange
  split
  · exact ⟨0, s.samples.length, by simp [QueryResult.ofSamples]⟩
  · split
    · exact ⟨0, 0, by simp⟩
    · exact ⟨_, _, rfl⟩

/-- C7: the open range query `queryRange(0, 0)` returns every retained sample in store
order, with time_from the timestamp of the first retained sample and time_to that of the
last; these are the samples and bounds `mempoolGetValuesInRange` passes on to the handler. -/
theorem queryRange_open_range (s : SampleStore) :
    (s.queryRange 0 0).samples = s.samples
      ∧ (∀ first, s.samples.head? = some first →
          (s.queryRange 0 0).time_from = first.timestamp)
      ∧ (∀ last, s.samples.getLast? = some last →
          (s.queryRange 0 0).time_to = last.timestamp)
      ∧ (mempoolGetValuesInRange s 0 0).timeFrom = (s.queryRange 0 0).time_from
      ∧ (mempoolGetValuesInRange s 0 0).timeTo = (s.queryRange 0 0).time_to
      ∧ (mempoolGetValuesInRange s 0 0).samples.length = s.samples.length := by
  have hq : s.queryRange 0 0 = QueryResult.ofSamples s.samples := by
    simp [SampleStore.queryRange]
  obtain ⟨h1, h2, h3⟩ := ofSamples_bounds s.samples
  rw [hq]
  refine ⟨h1, h2, h3, ?_, ?_, ?_⟩
  · simp [mempoolGetValuesInRange, hq]
  · simp [mempoolGetValuesInRange, hq]
  · simp [mempoolGetValuesInRange, hq, h1]

theorem queryRange_open_range_witness :
    ((SampleStore.mk 3 [sampleAt 2, sampleAt 3, sampleAt 4]).queryRange 0 0).samples
        = [sampleAt 2, sampleAt 3, sampleAt 4]
      ∧ ((SampleStore.mk 3 [sampleAt 2, sampleAt 3, sampleAt 4]).queryRange 0 0).time_from = 2
      ∧ ((SampleStore.mk 3 [sampleAt 2, sampleAt 3, sampleAt 4]).queryRange 0 0).time_to = 4 :=
  ⟨(queryRange_open_range (SampleStore.mk 3 [sampleAt 2, sampleAt 3, sampleAt 4])).1,
    (queryRange_open_range (SampleStore.mk 3 [sampleAt 2, sampleAt 3, sampleAt 4])).2.1
      (sampleAt 2) rfl,
    (queryRange_open_range (SampleStore.mk 3 [sampleAt 2, sampleAt 3, sampleAt 4])).2.2.1
      (sampleAt 4) rfl⟩

/-- C10: on a time-ordered store, for a range with from <= to that is not the open range
0, 0, `queryRange(from, to)` returns exactly the retained samples with from <= timestamp <= to,
in store order, as one contiguous stretch of the store; time_from and time_to are the
timestamps of the first and last returned sample; when no retained sample lies in the range
the result is empty with time_from = time_to = 0. -/
theorem queryRange_closed_range (s : SampleStore) (fromTime toTime : Nat)
    (hOrdered : TimeOrdered s.samples) (hRange : fromTime ≤ toTime)
    (hNotOpen : ¬ (fromTime = 0 ∧ toTime = 0)) :
    (s.queryRange fromTime toTime).samples
        = s.samples.filter (fun x => decide (fromTime ≤ x.timestamp ∧ x.timestamp ≤ toTime))
      ∧ (∃ before after,
          s.samples = before ++ (s.queryRange fromTime toTime).samples ++ after)
      ∧ (∀ first, (s.queryRange fromTime toTime).samples.head? = some first →
          (s.queryRange fromTime toTime).time_from = first.timestamp)
      ∧ (∀ last, (s.queryRange fromTime toTime).samples.getLast? = some last →
          (s.queryRange fromTime toTime).time_to = last.timestamp)
      ∧ ((∀ x ∈ s.samples, ¬ (fromTime ≤ x.timestamp ∧ x.timestamp ≤ toTime)) →
          s.queryRange fromTime toTime = { samples := [], time_from := 0, time_to := 0 }) := by
  have hq := queryRange_samples_eq_filter s fromTime toTime hOrdered hRange hNotOpen
  obtain ⟨lo, n, hslice⟩ := queryRange_is_slice s fromTime toTime
  refine ⟨by rw [hq]; rfl, ⟨s.samples.take lo, (s.samples.drop lo).drop n, ?_⟩, ?_, ?_, ?_⟩
  · rw [hslice, List.append_assoc, List.take_append_drop, List.take_append_drop]
  · rw [hq]
    exact (ofSamples_bounds _).2.1
  · rw [hq]
    exact (ofSamples_bounds _).2.2
  · intro hnone
    rw [hq]
    have hnil : s.samples.filter
        (fun x => decide (fromTime ≤ x.timestamp ∧ x.timestamp ≤ toTime)) = [] := by
      rw [List.filter_eq_nil_iff]
      intro x hx
      simpa using hnone x hx
    rw [hnil]
    rfl

theorem queryRange_closed_range_witness :
    ((SampleStore.mk 3 [sampleAt 2, sampleAt 3, sampleAt 4]).queryRange 2 3).samples
        = [sampleAt 2, sampleAt 3]
      ∧ ((SampleStore.mk 3 [sampleAt 2, sampleAt 3, sampleAt 4]).queryRange 2 3).time_from = 2
      ∧ ((SampleStore.mk 3 [sampleAt 2, sampleAt 3, sampleAt 4]).queryRange 2 3).time_to = 3
      ∧ (SampleStore.mk 3 [sampleAt 2, sampleAt 3, sampleAt 4]).queryRange 5 9
        = { samples := [], time_from := 0, time_to := 0 } := by
  have h := queryRange_closed_range (SampleStore.mk 3 [sampleAt 2, sampleAt 3, sampleAt 4]) 2 3
    (by decide) (by decide) (by decide)
  have h' := queryRange_closed_range (SampleStore.mk 3 [sampleAt 2, sampleAt 3, sampleAt 4]) 5 9
    (by decide) (by decide) (by decide)
  refine ⟨h.1.trans (by decide), ?_, ?_, h'.2.2.2.2 (by decide)⟩
  · exact h.2.2.1 (sampleAt 2) (by rw [h.1]; decide)
  · exact h.2.2.2.1 (sampleAt 3) (by rw [h.1]; decide)

/-! ## The handler over the store -/

theorem timeOrdered_head_le (xs : List Sample) (h : TimeOrdered xs) :
    ∀ x ∈ xs, (xs.head?.map Sample.timestamp).getD 0 ≤ x.timestamp := by
  intro x hx
  cases xs with
  | nil => cases hx
  | cons a l =>
    simp only [List.head?_cons, Option.map_some', Option.getD_some]
    rcases List.mem_cons.mp hx with heq | hmem
    · rw [heq]
    · exact (List.pairwise_cons.mp h).1 x hmem

theorem castUInt64_delta (t base : Nat) (hle : base ≤ t) (hlt : t < 2 ^ 64) :
    castUInt64 ((t : Int) - (base : Int)) = (t : Int) - (base : Int) := by
  unfold castUInt64
  apply Int.emod_eq_of_lt
  · omega
  · have : ((2 : Int) ^ 64) = ((2 ^ 64 : Nat) : Int) := by norm_num
    rw [this]
    omega

theorem open_reply (s : SampleStore) :
    mempoolGetValuesInRange s 0 0
      = { samples := s.samples.map (fun x =>
            { m_time_delta := (x.timestamp : Int)
                - (((s.samples.head?.map Sample.timestamp).getD 0 : Nat) : Int)
              m_tx_count := (x.tx_count : Int)
              m_dyn_mem_usage := (x.dynamic_memory_usage : Int)
              m_min_fee_per_k := (x.min_fee_rate : Int) })
          timeFrom := (s.samples.head?.map Sample.timestamp).getD 0
          timeTo := (s.samples.getLast?.map Sample.timestamp).getD 0 } := by
  simp [mempoolGetValuesInRange, SampleStore.queryRange, QueryResult.ofSamples]

/-- C3: over a time-ordered store with 64-bit timestamps, every flat array the handler emits
starts with the sample's timestamp minus the time_from of the same result; so the first
emitted sample has delta 0 and the last has delta time_to - time_from. -/
theorem getmempoolstats_time_delta (helpText : String) (s : SampleStore)
    (request : JSONRPCRequest) (hHelp : request.fHelp = false)
    (hParams : request.params.size = 0) (hOrdered : TimeOrdered s.samples)
    (hBits : ∀ x ∈ s.samples, x.timestamp < 2 ^ 64) :
    ∃ (result : UniValue) (timeFrom timeTo : Int),
      getmempoolstats helpText (mempoolGetValuesInRange s) request = Except.ok result
      ∧ result.find "time_from" = some (UniValue.VNUM timeFrom)
      ∧ result.find "time_to" = some (UniValue.VNUM timeTo)
      ∧ result.find "samples" = some (UniValue.VARR (s.samples.map (fun x =>
          UniValue.VARR [UniValue.VNUM ((x.timestamp : Int) - timeFrom),
            UniValue.VNUM (x.tx_count : Int), UniValue.VNUM (x.dynamic_memory_usage : Int),
            UniValue.VNUM (x.min_fee_rate : Int)])))
      ∧ (∀ first, s.samples.head? = some first → (first.timestamp : Int) - timeFrom = 0)
      ∧ (∀ last, s.samples.getLast? = some last →
          (last.timestamp : Int) - timeFrom = timeTo - timeFrom) := by
  refine ⟨resultObject (mempoolGetValuesInRange s 0 0),
    (((s.samples.head?.map Sample.timestamp).getD 0 : Nat) : Int),
    (((s.samples.getLast?.map Sample.timestamp).getD 0 : Nat) : Int),
    getmempoolstats_accepted helpText _ request hHelp hParams, ?_, ?_, ?_, ?_, ?_⟩
  · rw [open_reply]
    simp [resultObject, UniValue.find, List.find?]
  · rw [open_reply]
    simp [resultObject, UniValue.find, List.find?]
  · rw [open_reply]
    simp only [resultObject, UniValue.find, List.find?, List.map_map]
    simp only [decide_eq_true_eq, String.reduceEq, decide_False, decide_True, Option.map_some',
      Option.some.injEq, UniValue.VARR.injEq]
    apply List.map_congr_left
    intro x hx
    simp only [Function.comp, flatSample]
    rw [castUInt64_delta x.timestamp _ (timeOrdered_head_le s.samples hOrdered x hx)
      (hBits x hx)]
  · intro first h
    simp [h]
  · intro last h
    simp [h]

theorem getmempoolstats_time_delta_witness :
    ∃ (result : UniValue) (timeFrom timeTo : Int),
      getmempoolstats "help"
        (mempoolGetValuesInRange (SampleStore.mk 3 [sampleAt 2, sampleAt 3, sampleAt 4]))
        plainRequest = Except.ok result
      ∧ result.find "time_from" = some (UniValue.VNUM timeFrom)
      ∧ result.find "time_to" = some (UniValue.VNUM timeTo)
      ∧ result.find "samples" = some (UniValue.VARR ([sampleAt 2, sampleAt 3, sampleAt 4].map
          (fun x => UniValue.VARR [UniValue.VNUM ((x.timestamp : Int) - timeFrom),
            UniValue.VNUM (x.tx_count : Int), UniValue.VNUM (x.dynamic_memory_usage : Int),
            UniValue.VNUM (x.min_fee_rate : Int)])))
      ∧ (∀ first, [sampleAt 2, sampleAt 3, sampleAt 4].head? = some first →
          (first.timestamp : Int) - timeFrom = 0)
      ∧ (∀ last, [sampleAt 2, sampleAt 3, sampleAt 4].getLast? = some last →
          (last.timestamp : Int) - timeFrom = timeTo - timeFrom) :=
  getmempoolstats_time_delta "help" (SampleStore.mk 3 [sampleAt 2, sampleAt 3, sampleAt 4])
    plainRequest rfl rfl (by decide) (by decide)

/-- C4: for an accepted request the handler asks the store for the open range 0, 0 and for
nothing else, whatever the request holds: its answer depends on the store only through the
reply to (0, 0) and is the same for every accepted request; over the sample store this reply
covers every retained sample, so the handler reports one entry per retained sample carrying
that sample's metrics. -/
theorem getmempoolstats_queries_open_range (helpText : String) (request : JSONRPCRequest)
    (hHelp : request.fHelp = false) (hParams : request.params.size = 0) :
    (∀ store : Nat → Nat → RangeReply,
        getmempoolstats helpText store request = Except.ok (resultObject (store 0 0)))
      ∧ (∀ store other : Nat → Nat → RangeReply, store 0 0 = other 0 0 →
          getmempoolstats helpText store request = getmempoolstats helpText other request)
      ∧ (∀ store : Nat → Nat → RangeReply,
          getmempoolstats helpText store request = getmempoolstats helpText store plainRequest)
      ∧ (∀ s : SampleStore, ∃ result items,
          getmempoolstats helpText (mempoolGetValuesInRange s) request = Except.ok result
          ∧ result.find "samples" = some (UniValue.VARR items)
          ∧ items.length = s.samples.length
          ∧ items.map (fun item => item.getValues.drop 1) = s.samples.map (fun x =>
              [UniValue.VNUM (x.tx_count : Int), UniValue.VNUM (x.dynamic_memory_usage : Int),
                UniValue.VNUM (x.min_fee_rate : Int)])) := by
  have hacc := fun store => getmempoolstats_accepted helpText store request hHelp hParams
  refine ⟨hacc, ?_, ?_, ?_⟩
  · intro store other h
    rw [hacc store, hacc other, h]
  · intro store
    rw [hacc store, getmempoolstats_accepted helpText store plainRequest rfl rfl]
  · intro s
    refine ⟨_, (mempoolGetValuesInRange s 0 0).samples.map flatSample, hacc _, ?_, ?_, ?_⟩
    · simp [resultObject, UniValue.find, List.find?]
    · rw [open_reply]
      simp
    · rw [open_reply]
      simp [flatSample, UniValue.getValues, Function.comp_def]

theorem getmempoolstats_queries_open_range_witness :
    getmempoolstats "help" (fun a b => if a = 0 ∧ b = 0 then twoSampleReply else ⟨[], 1, 1⟩)
        plainRequest = Except.ok (resultObject twoSampleReply) :=
  (getmempoolstats_queries_open_range "help" plainRequest rfl rfl).1
    (fun a b => if a = 0 ∧ b = 0 then twoSampleReply else ⟨[], 1, 1⟩)

/-! ## The store: inverted ranges and ordering -/

/-- C11: for every store and every range with to < from, `queryRange(from, to)` returns the
empty list with time_from = 0 and time_to = 0 (it is a total function, nothing is raised);
the same empty, zero-bounded answer reaches the caller of `mempoolGetValuesInRange`. -/
theorem queryRange_inverted_range (s : SampleStore) (fromTime toTime : Nat)
    (hInverted : toTime < fromTime) :
    s.queryRange fromTime toTime = { samples := [], time_from := 0, time_to := 0 }
      ∧ mempoolGetValuesInRange s fromTime toTime
          = { samples := [], timeFrom := 0, timeTo := 0 } := by
  have hq : s.queryRange fromTime toTime = { samples := [], time_from := 0, time_to := 0 } := by
    unfold SampleStore.queryRange
    rw [if_neg (by omega), if_pos hInverted]
  refine ⟨hq, ?_⟩
  simp [mempoolGetValuesInRange, hq]

theorem queryRange_inverted_range_witness :
    (SampleStore.mk 3 [sampleAt 2, sampleAt 3, sampleAt 4]).queryRange 10 1
      = { samples := [], time_from := 0, time_to := 0 } :=
  (queryRange_inverted_range (SampleStore.mk 3 [sampleAt 2, sampleAt 3, sampleAt 4]) 10 1
    (by decide)).1

theorem append_mem (s : SampleStore) (x y : Sample) (hy : y ∈ (s.append x).samples) :
    y ∈ s.samples ∨ y = x := by
  unfold SampleStore.append at hy
  simp only [] at hy
  split at hy
  · have := List.mem_of_mem_tail hy
    simpa using this
  · simpa using hy

theorem append_timeOrdered (s : SampleStore) (x : Sample) (h : TimeOrdered s.samples)
    (hx : ∀ y ∈ s.samples, y.timestamp ≤ x.timestamp) :
    TimeOrdered (s.append x).samples := by
  have hall : TimeOrdered (s.samples ++ [x]) := by
    unfold TimeOrdered at *
    rw [List.pairwise_append]
    refine ⟨h, List.pairwise_singleton _ _, ?_⟩
    intro a ha b hb
    rw [List.mem_singleton.mp hb]
    exact hx a ha
  unfold SampleStore.append
  simp only []
  split
  · exact List.Pairwise.tail hall
  · exact hall

theorem foldl_append_timeOrdered (xs : List Sample) :
    ∀ s : SampleStore, TimeOrdered s.samples → TimeOrdered xs →
      (∀ y ∈ s.samples, ∀ x ∈ xs, y.timestamp ≤ x.timestamp) →
      TimeOrdered (xs.foldl SampleStore.append s).samples := by
  induction xs with
  | nil => intro s h _ _; exact h
  | cons x xs ih =>
    intro s h hxs hle
    rw [List.foldl_cons]
    have hx := List.pairwise_cons.mp hxs
    apply ih (s.append x)
    · exact append_timeOrdered s x h (fun y hy => hle y hy x (List.mem_cons_self _ _))
    · exact hx.2
    · intro y hy z hz
      rcases append_mem s x y hy with hmem | heq
      · exact hle y hmem z (List.mem_cons_of_mem _ hz)
      · rw [heq]
        exact hx.1 z hz

theorem foldl_tick_timeOrdered (ticks : List Tick) :
    ∀ s : SampleStore, TimeOrdered s.samples → ClockMonotone ticks →
      (∀ y ∈ s.samples, ∀ t ∈ ticks, y.timestamp ≤ t.clock) →
      TimeOrdered (ticks.foldl Collector.tick s).samples := by
  induction ticks with
  | nil => intro s h _ _; exact h
  | cons t ts ih =>
    intro s h hmono hle
    rw [List.foldl_cons]
    have ht := List.pairwise_cons.mp hmono
    cases hm : t.metrics with
    | none =>
      have hs : Collector.tick s t = s := by simp [Collector.tick, hm]
      rw [hs]
      exact ih s h ht.2 (fun y hy z hz => hle y hy z (List.mem_cons_of_mem _ hz))
    | some m =>
      have hs : Collector.tick s t
          = s.append ⟨t.clock, m.tx_count, m.dynamic_memory_usage, m.min_fee_rate⟩ := by
        simp [Collector.tick, hm]
      rw [hs]
      apply ih
      · exact append_timeOrdered s _ h (fun y hy => hle y hy t (List.mem_cons_self _ _))
      · exact ht.2
      · intro y hy z hz
        rcases append_mem s _ y hy with hmem | heq
        · exact hle y hmem z (List.mem_cons_of_mem _ hz)
        · rw [heq]
          exact ht.1 z hz

/-- C12: every store state reached from the empty store, by the Collector ticking on a clock
that never runs backwards or by appends of samples in timestamp order, keeps its samples in
non-decreasing timestamp order; and the time deltas handed to `getmempoolstats` for the open
range, which it emits in that order, are non-decreasing as well. -/
theorem store_time_ordered (capacity : Nat) :
    (∀ ticks : List Tick, ClockMonotone ticks →
        TimeOrdered (ticks.foldl Collector.tick (SampleStore.empty capacity)).samples)
      ∧ (∀ xs : List Sample, TimeOrdered xs →
          TimeOrdered (xs.foldl SampleStore.append (SampleStore.empty capacity)).samples)
      ∧ (∀ s : SampleStore, TimeOrdered s.samples →
          ((mempoolGetValuesInRange s 0 0).samples.map
            CStatsMempoolSample.m_time_delta).Pairwise (fun a b => a ≤ b)) := by
  have hnil : TimeOrdered (SampleStore.empty capacity).samples := List.Pairwise.nil
  refine ⟨?_, ?_, ?_⟩
  · intro ticks hmono
    exact foldl_tick_timeOrdered ticks _ hnil hmono (fun y hy => by cases hy)
  · intro xs hxs
    exact foldl_append_timeOrdered xs _ hnil hxs (fun y hy => by cases hy)
  · intro s hs
    rw [open_reply]
    simp only [List.map_map]
    rw [List.pairwise_map]
    unfold TimeOrdered at hs
    refine List.Pairwise.imp ?_ hs
    intro a b hab
    simp only [Function.comp]
    omega

theorem store_time_ordered_witness :
    TimeOrdered ([tickAt 1, ⟨2, none⟩, tickAt 2, tickAt 5].foldl Collector.tick
      (SampleStore.empty 2)).samples :=
  (store_time_ordered 2).1 [tickAt 1, ⟨2, none⟩, tickAt 2, tickAt 5] (by decide)

end MempoolStats

namespace OptionsDialog

/-! ## The options dialog: saving -/

theorem toInt32_of_range (x : Int) (h1 : -2147483648 ≤ x) (h2 : x ≤ 2147483647) :
    toInt32 x = x := by
  unfold toInt32
  norm_num
  omega

theorem toInt64_of_range (x : Int) (h1 : -2147483648 ≤ x) (h2 : x ≤ 2147483647) :
    toInt64 x = x := by
  unfold toInt64
  norm_num
  omega

theorem firstRejected_none_iff (env : Env) (model : OptionsModel) (mapper : QDataWidgetMapper)
    (tab : List Child) :
    firstRejected env model mapper tab = none
      ↔ ∀ lineedit, Child.lineEdit lineedit ∈ tab →
          (lineedit.hasAcceptableInput = true
            ∨ env.variantEqualsText (model.data (mapper.mappedSection lineedit.objectName))
                lineedit.text = true) := by
  induction tab with
  | nil => simp [firstRejected]
  | cons c rest ih =>
    cases c with
    | other name =>
      simp only [firstRejected, ih, List.mem_cons]
      constructor
      · intro h lineedit hmem
        rcases hmem with hc | hmem
        · cases hc
        · exact h lineedit hmem
      · intro h lineedit hmem
        exact h lineedit (Or.inr hmem)
    | lineEdit w =>
      simp only [firstRejected, List.mem_cons]
      by_cases hacc : w.hasAcceptableInput = true
      · simp only [hacc, Bool.not_true, Bool.false_eq_true, if_false, ih]
        constructor
        · intro h lineedit hmem
          rcases hmem with hc | hmem
          · cases hc
            exact Or.inl hacc
          · exact h lineedit hmem
        · intro h lineedit hmem
          exact h lineedit (Or.inr hmem)
      · have hacc' : w.hasAcceptableInput = false := by
          cases hw : w.hasAcceptableInput
          · rfl
          · exact absurd hw hacc
        simp only [hacc', Bool.not_false, if_true]
        by_cases heq : env.variantEqualsText (model.data (mapper.mappedSection w.objectName))
            w.text = true
        · simp only [heq, if_true, ih]
          constructor
          · intro h lineedit hmem
            rcases hmem with hc | hmem
            · cases hc
              exact Or.inr heq
            · exact h lineedit hmem
          · intro h lineedit hmem
            exact h lineedit (Or.inr hmem)
        · simp only [heq, if_false]
          constructor
          · intro h
            cases h
          · intro h
            rcases h w (Or.inl rfl) with h1 | h1
            · rw [hacc'] at h1
              cases h1
            · exact absurd h1 heq

theorem scanTabs_none_iff (env : Env) (model : OptionsModel) (mapper : QDataWidgetMapper)
    (tabs : List (List Child)) :
    ∀ i, scanTabs env model mapper i tabs = none
      ↔ ∀ tab ∈ tabs, firstRejected env model mapper tab = none := by
  induction tabs with
  | nil => intro i; simp [scanTabs]
  | cons tab rest ih =>
    intro i
    simp only [scanTabs, List.mem_cons, forall_eq_or_imp]
    cases h : firstRejected env model mapper tab with
    | none => simp [ih (i + 1)]
    | some w => simp

theorem scanTabs_eq_none (env : Env) (model : OptionsModel) (mapper : QDataWidgetMapper)
    (tabs : List (List Child))
    (h : ∀ tab ∈ tabs, ∀ lineedit, Child.lineEdit lineedit ∈ tab →
      (lineedit.hasAcceptableInput = true
        ∨ env.variantEqualsText (model.data (mapper.mappedSection lineedit.objectName))
            lineedit.text = true)) :
    scanTabs env model mapper 0 tabs = none :=
  (scanTabs_none_iff env model mapper tabs 0).mpr
    (fun tab htab => (firstRejected_none_iff env model mapper tab).mpr (h tab htab))

theorem scanTabs_ne_none (env : Env) (model : OptionsModel) (mapper : QDataWidgetMapper)
    (tabs : List (List Child))
    (h : ∃ tab ∈ tabs, ∃ lineedit, Child.lineEdit lineedit ∈ tab
      ∧ lineedit.hasAcceptableInput = false
      ∧ env.variantEqualsText (model.data (mapper.mappedSection lineedit.objectName))
          lineedit.text = false) :
    ∃ i w, scanTabs env model mapper 0 tabs = some (i, w) := by
  obtain ⟨tab, htab, lineedit, hmem, hacc, hne⟩ := h
  cases hs : scanTabs env model mapper 0 tabs with
  | some r => exact ⟨r.1, r.2, rfl⟩
  | none =>
    have h1 := (scanTabs_none_iff env model mapper tabs 0).mp hs tab htab
    rcases (firstRejected_none_iff env model mapper tab).mp h1 lineedit hmem with h2 | h2
    · rw [hacc] at h2
      cases h2
    · rw [hne] at h2
      cases h2

theorem on_okButton_clicked_saved (env : Env) (model : OptionsModel) (ui : Ui)
    (mapper : QDataWidgetMapper) (h : scanTabs env model mapper 0 ui.tabs = none) :
    on_okButton_clicked env model ui mapper
      = (match ui.prune.checkState with
          | CheckState.Unchecked => [Effect.setData OptionID.PruneMiB (QVariant.ofInt 0)]
          | CheckState.PartiallyChecked => [Effect.setData OptionID.PruneMiB (QVariant.ofInt 1)]
          | CheckState.Checked =>
            [Effect.setData OptionID.PruneMiB (QVariant.ofInt ui.pruneSize.value)])
        ++ [Effect.setData OptionID.addresstype
              (QVariant.ofString (new_addresstype ui.layoutAddressType))]
        ++ (if ui.maxuploadtargetCheckbox.isChecked then
              [Effect.setData OptionID.maxuploadtarget (QVariant.ofInt ui.maxuploadtarget.value)]
            else [Effect.setData OptionID.maxuploadtarget (QVariant.ofInt 0)])
        ++ [Effect.setData OptionID.mempoolreplacement
              (ui.mempoolreplacement.itemData ui.mempoolreplacement.currentIndex)]
        ++ [Effect.submit, Effect.accept, Effect.updateDefaultProxyNets] := by
  unfold on_okButton_clicked
  rw [h]

/-- C13: `on_okButton_clicked` is atomic on invalid input. If some line edit that is a direct
child of some tab has unacceptable input and a text that differs from the model's value for
its mapped row, the handler does nothing that writes to the model (no setData, no submit)
and does not accept the dialog. If every line edit with unacceptable input has the text the
model holds, nothing blocks: the handler writes, submits the mapper and accepts. -/
theorem on_okButton_clicked_atomic (env : Env) (model : OptionsModel) (ui : Ui)
    (mapper : QDataWidgetMapper) :
    ((∃ tab ∈ ui.tabs, ∃ lineedit, Child.lineEdit lineedit ∈ tab
          ∧ lineedit.hasAcceptableInput = false
          ∧ env.variantEqualsText (model.data (mapper.mappedSection lineedit.objectName))
              lineedit.text = false) →
        ∀ e ∈ on_okButton_clicked env model ui mapper,
          e.writesModel = false ∧ e ≠ Effect.accept)
      ∧ ((∀ tab ∈ ui.tabs, ∀ lineedit, Child.lineEdit lineedit ∈ tab →
            lineedit.hasAcceptableInput = false →
            env.variantEqualsText (model.data (mapper.mappedSection lineedit.objectName))
              lineedit.text = true) →
          Effect.submit ∈ on_okButton_clicked env model ui mapper
            ∧ Effect.accept ∈ on_okButton_clicked env model ui mapper
            ∧ (∃ value, Effect.setData OptionID.PruneMiB value
                ∈ on_okButton_clicked env model ui mapper)
            ∧ (∃ value, Effect.setData OptionID.maxuploadtarget value
                ∈ on_okButton_clicked env model ui mapper)) := by
  constructor
  · intro h e he
    obtain ⟨i, w, hs⟩ := scanTabs_ne_none env model mapper ui.tabs h
    unfold on_okButton_clicked at he
    rw [hs] at he
    simp only [List.mem_cons, List.mem_singleton, List.not_mem_nil, or_false] at he
    rcases he with he | he | he | he <;> rw [he] <;> exact ⟨rfl, by simp⟩
  · intro h
    have hs := scanTabs_eq_none env model mapper ui.tabs (fun tab htab lineedit hmem => by
      cases hacc : lineedit.hasAcceptableInput
      · exact Or.inr (h tab htab lineedit hmem hacc)
      · exact Or.inl rfl)
    rw [on_okButton_clicked_saved env model ui mapper hs]
    refine ⟨by simp, by simp, ?_, ?_⟩
    · cases ui.prune.checkState
      · exact ⟨QVariant.ofInt 0, by simp⟩
      · exact ⟨QVariant.ofInt 1, by simp⟩
      · exact ⟨QVariant.ofInt ui.pruneSize.value, by simp⟩
    · cases ui.maxuploadtargetCheckbox.isChecked
      · exact ⟨QVariant.ofInt 0, by simp⟩
      · exact ⟨QVariant.ofInt ui.maxuploadtarget.value, by simp⟩

theorem on_okButton_clicked_atomic_witness :
    (¬ Effect.submit ∈ on_okButton_clicked plainEnv (modelWith 0 0)
        { blankUi with tabs := [[Child.lineEdit ⟨"networkPort", "80", false, true⟩]] }
        ⟨[("networkPort", OptionID.NetworkPort)]⟩)
      ∧ Effect.submit ∈ on_okButton_clicked plainEnv (modelWith 0 0)
        { blankUi with tabs := [[Child.lineEdit ⟨"networkPort", "8333", false, true⟩]] }
        ⟨[("networkPort", OptionID.NetworkPort)]⟩ :=
  ⟨fun hmem => Bool.noConfusion
      ((on_okButton_clicked_atomic plainEnv (modelWith 0 0)
        { blankUi with tabs := [[Child.lineEdit ⟨"networkPort", "80", false, true⟩]] }
        ⟨[("networkPort", OptionID.NetworkPort)]⟩).1
        ⟨[Child.lineEdit ⟨"networkPort", "80", false, true⟩], List.mem_singleton.mpr rfl,
          ⟨"networkPort", "80", false, true⟩, List.mem_singleton.mpr rfl, rfl, by decide⟩
        Effect.submit hmem).1,
    ((on_okButton_clicked_atomic plainEnv (modelWith 0 0)
        { blankUi with tabs := [[Child.lineEdit ⟨"networkPort", "8333", false, true⟩]] }
        ⟨[("networkPort", OptionID.NetworkPort)]⟩).2
        (fun tab htab lineedit hmem _ => by
          rw [List.mem_singleton.mp htab] at hmem
          have := List.mem_singleton.mp hmem
          cases this
          decide)).1⟩

theorem writesTo_maxuploadtarget_saved (env : Env) (model : OptionsModel) (ui : Ui)
    (mapper : QDataWidgetMapper) (h : scanTabs env model mapper 0 ui.tabs = none) :
    writesTo OptionID.maxuploadtarget (on_okButton_clicked env model ui mapper)
      = [QVariant.ofInt
          (if ui.maxuploadtargetCheckbox.isChecked then ui.maxuploadtarget.value else 0)] := by
  rw [on_okButton_clicked_saved env model ui mapper h]
  cases ui.prune.checkState <;> cases ui.maxuploadtargetCheckbox.isChecked <;>
    simp [writesTo]

theorem writesTo_PruneMiB_saved (env : Env) (model : OptionsModel) (ui : Ui)
    (mapper : QDataWidgetMapper) (h : scanTabs env model mapper 0 ui.tabs = none) :
    writesTo OptionID.PruneMiB (on_okButton_clicked env model ui mapper)
      = [QVariant.ofInt
          (match ui.prune.checkState with
            | CheckState.Unchecked => 0
            | CheckState.PartiallyChecked => 1
            | CheckState.Checked => ui.pruneSize.value)] := by
  rw [on_okButton_clicked_saved env model ui mapper h]
  cases ui.prune.checkState <;> cases ui.maxuploadtargetCheckbox.isChecked <;>
    simp [writesTo]

theorem setMapper_tabs (env : Env) (model : OptionsModel) (ui : Ui)
    (mapper : QDataWidgetMapper) : (setMapper env model ui mapper).1.tabs = ui.tabs := by
  unfold setMapper
  simp only []
  split_ifs <;> rfl

theorem setMapper_maxuploadtarget (env : Env) (model : OptionsModel) (ui : Ui)
    (mapper : QDataWidgetMapper) :
    (setMapper env model ui mapper).1.maxuploadtarget
      = (if (model.data (some OptionID.maxuploadtarget)).toInt env = 0 then
          (ui.maxuploadtarget.setEnabled false).setValue ui.maxuploadtarget.minimum
        else
          (((if (model.data (some OptionID.maxuploadtarget)).toInt env < ui.maxuploadtarget.minimum
              then ui.maxuploadtarget.setMinimum
                ((model.data (some OptionID.maxuploadtarget)).toInt env)
              else ui.maxuploadtarget).setEnabled true).setValue
            ((model.data (some OptionID.maxuploadtarget)).toInt env))) := by
  unfold setMapper
  simp only []
  split_ifs <;> rfl

theorem setMapper_maxuploadtargetCheckbox (env : Env) (model : OptionsModel) (ui : Ui)
    (mapper : QDataWidgetMapper) :
    (setMapper env model ui mapper).1.maxuploadtargetCheckbox
      = ui.maxuploadtargetCheckbox.setChecked
          (decide ((model.data (some OptionID.maxuploadtarget)).toInt env ≠ 0)) := by
  unfold setMapper
  simp only []
  split_ifs <;> simp_all

theorem setMapper_prune (env : Env) (model : OptionsModel) (ui : Ui)
    (mapper : QDataWidgetMapper) :
    (setMapper env model ui mapper).1.prune.checkState
      = (if (model.data (some OptionID.PruneMiB)).toLongLong env = 0 then CheckState.Unchecked
        else if (model.data (some OptionID.PruneMiB)).toLongLong env = 1 then
          CheckState.PartiallyChecked
        else CheckState.Checked) := by
  unfold setMapper
  simp only []
  split_ifs <;> rfl

theorem setMapper_pruneSize (env : Env) (model : OptionsModel) (ui : Ui)
    (mapper : QDataWidgetMapper)
    (h0 : (model.data (some OptionID.PruneMiB)).toLongLong env ≠ 0)
    (h1 : (model.data (some OptionID.PruneMiB)).toLongLong env ≠ 1) :
    (setMapper env model ui mapper).1.pruneSize.value
      = ui.pruneSize.bound (toInt32 ((model.data (some OptionID.PruneMiB)).toLongLong env)) := by
  unfold setMapper
  simp only []
  split_ifs <;> rfl

theorem construct_maxuploadtarget (ui : Ui) :
    (construct ui).maxuploadtarget.minimum = 144
      ∧ (construct ui).maxuploadtarget.maximum = INT_MAX := by
  unfold construct
  simp only [QSpinBox.setMinimum, QSpinBox.setMaximum, QSpinBox.setRange, INT_MAX]
  constructor <;> split_ifs <;> omega

theorem construct_tabs (ui : Ui) : (construct ui).tabs = ui.tabs := rfl

theorem upload_spin_value (b : QSpinBox) (v : Int) (hmax : v ≤ b.maximum) :
    (((if v < b.minimum then b.setMinimum v else b).setEnabled true).setValue v).value = v
      ∧ (v < b.minimum →
          (((if v < b.minimum then b.setMinimum v else b).setEnabled true).setValue
            v).minimum = v) := by
  by_cases hlt : v < b.minimum
  · simp only [hlt, if_true, QSpinBox.setMinimum, QSpinBox.setRange, QSpinBox.setEnabled,
      QSpinBox.setValue, QSpinBox.bound]
    constructor
    · split_ifs <;> omega
    · intro _; trivial
  · simp only [hlt, if_false, QSpinBox.setEnabled, QSpinBox.setValue, QSpinBox.bound]
    constructor
    · split_ifs <;> omega
    · intro h; exact h.elim

theorem setMapper_leaves_rows_unmapped (env : Env) (model : OptionsModel) (ui : Ui) :
    ∀ widget, (setMapper env model ui ⟨[]⟩).2.mappedSection widget
        ≠ some OptionID.maxuploadtarget
      ∧ (setMapper env model ui ⟨[]⟩).2.mappedSection widget ≠ some OptionID.PruneMiB := by
  intro widget
  have hm : ∀ entry ∈ (setMapper env model ui ⟨[]⟩).2.mappings,
      entry.2 ≠ OptionID.maxuploadtarget ∧ entry.2 ≠ OptionID.PruneMiB := by
    unfold setMapper
    simp only []
    rcases env with ⟨tr, toInt, toLongLong, veq, mac, tray⟩
    cases mac <;> cases tray <;> simp only [Bool.false_eq_true, if_true, if_false] <;> decide
  unfold QDataWidgetMapper.mappedSection
  cases hf : (setMapper env model ui ⟨[]⟩).2.mappings.find? (fun entry => entry.1 = widget) with
  | none => simp
  | some entry =>
    have := hm entry (List.mem_of_find?_eq_some hf)
    simp only [Option.map_some', ne_eq, Option.some.injEq]
    exact this

/-- C14: the max-upload-target setting round-trips. For every `int` value v the model holds,
the constructor's range, then `setMapper`, then `on_okButton_clicked` with nothing edited
(no line edit rejected) writes exactly v to `OptionsModel::maxuploadtarget`, once. The value
0 leaves the check box unchecked and is written as 0; a non-zero v below 144 lowers the spin
box minimum to v instead of being clamped. -/
theorem maxuploadtarget_round_trip (env : Env) (model : OptionsModel) (ui0 ui : Ui)
    (mapper : QDataWidgetMapper) (v : Int)
    (hModel : model.data (some OptionID.maxuploadtarget) = QVariant.ofInt v)
    (hInt : -2147483648 ≤ v ∧ v ≤ INT_MAX)
    (hSet : setMapper env model (construct ui0) ⟨[]⟩ = (ui, mapper))
    (hUnedited : ∀ tab ∈ ui.tabs, ∀ lineedit, Child.lineEdit lineedit ∈ tab →
      (lineedit.hasAcceptableInput = true
        ∨ env.variantEqualsText (model.data (mapper.mappedSection lineedit.objectName))
            lineedit.text = true)) :
    writesTo OptionID.maxuploadtarget (on_okButton_clicked env model ui mapper)
        = [QVariant.ofInt v]
      ∧ (v = 0 → ui.maxuploadtargetCheckbox.checkState = CheckState.Unchecked)
      ∧ (v ≠ 0 → ui.maxuploadtargetCheckbox.checkState = CheckState.Checked
          ∧ ui.maxuploadtarget.value = v)
      ∧ (v ≠ 0 → v < 144 → ui.maxuploadtarget.minimum = v)
      ∧ (∀ widget, mapper.mappedSection widget ≠ some OptionID.maxuploadtarget) := by
  have hmapper : mapper = (setMapper env model (construct ui0) ⟨[]⟩).2 := by rw [hSet]
  have hunmapped : ∀ widget, mapper.mappedSection widget ≠ some OptionID.maxuploadtarget :=
    fun widget => by
      rw [hmapper]
      exact (setMapper_leaves_rows_unmapped env model (construct ui0) widget).1
  have hcur : (model.data (some OptionID.maxuploadtarget)).toInt env = v := by
    rw [hModel]
    exact toInt32_of_range v hInt.1 (by have := hInt.2; unfold INT_MAX at this; exact this)
  have hui : ui = (setMapper env model (construct ui0) ⟨[]⟩).1 := by rw [hSet]
  have hbox := setMapper_maxuploadtargetCheckbox env model (construct ui0) ⟨[]⟩
  have hspin := setMapper_maxuploadtarget env model (construct ui0) ⟨[]⟩
  rw [← hui, hcur] at hbox hspin
  obtain ⟨hmin, hmax⟩ := construct_maxuploadtarget ui0
  have hs := scanTabs_eq_none env model mapper ui.tabs hUnedited
  rw [writesTo_maxuploadtarget_saved env model ui mapper hs]
  by_cases hv : v = 0
  · subst hv
    have hstate : ui.maxuploadtargetCheckbox.checkState = CheckState.Unchecked := by
      rw [hbox]
      simp [QCheckBox.setChecked]
    refine ⟨?_, fun _ => hstate, fun h => absurd rfl h, fun h => absurd rfl h, hunmapped⟩
    simp [QCheckBox.isChecked, hstate]
  · have hstate : ui.maxuploadtargetCheckbox.checkState = CheckState.Checked := by
      rw [hbox]
      simp [QCheckBox.setChecked, hv]
    rw [if_neg hv] at hspin
    obtain ⟨hval, hlow⟩ := upload_spin_value (construct ui0).maxuploadtarget v
      (by rw [hmax]; exact hInt.2)
    rw [← hspin] at hval hlow
    refine ⟨?_, fun h => absurd h hv, fun _ => ⟨hstate, hval⟩, fun _ h144 => ?_, hunmapped⟩
    · simp [QCheckBox.isChecked, hstate, hval]
    · exact hlow (by rw [hmin]; exact h144)

theorem maxuploadtarget_round_trip_witness :
    writesTo OptionID.maxuploadtarget (on_okButton_clicked plainEnv (modelWith 0 100)
        (setMapper plainEnv (modelWith 0 100) (construct blankUi) ⟨[]⟩).1
        (setMapper plainEnv (modelWith 0 100) (construct blankUi) ⟨[]⟩).2)
      = [QVariant.ofInt 100]
      ∧ (setMapper plainEnv (modelWith 0 100) (construct blankUi) ⟨[]⟩).1.maxuploadtarget.minimum
        = 100 :=
  have h := maxuploadtarget_round_trip plainEnv (modelWith 0 100) blankUi
    (setMapper plainEnv (modelWith 0 100) (construct blankUi) ⟨[]⟩).1
    (setMapper plainEnv (modelWith 0 100) (construct blankUi) ⟨[]⟩).2 100 rfl
    (by decide) rfl
    (fun tab htab lineedit hmem => by
      rw [setMapper_tabs] at htab
      rw [List.mem_singleton.mp htab] at hmem
      simp only [List.mem_cons, List.mem_singleton, List.not_mem_nil, or_false] at hmem
      rcases hmem with hc | hc
      · cases hc
      · cases hc
        exact Or.inl rfl)
  ⟨h.1, h.2.2.2.1 (by decide) (by decide)⟩

theorem setRange_bound (b : QSpinBox) (lo hi v : Int) (h1 : lo ≤ v) (h2 : v ≤ hi) :
    (b.setRange lo hi).bound v = v := by
  have hmin : (b.setRange lo hi).minimum = lo := rfl
  have hmax : (b.setRange lo hi).maximum = if lo < hi then hi else lo := rfl
  unfold QSpinBox.bound
  rw [hmin, hmax]
  split_ifs <;> omega

theorem setModel_eq (env : Env) (MIN_DISK_SPACE_FOR_BLOCK_FILES : Nat) (m : OptionsModel)
    (ui : Ui) (mapper : QDataWidgetMapper) :
    ∃ ui1 : Ui, ui1.tabs = ui.tabs
      ∧ ui1.pruneSize
          = ui.pruneSize.setRange (toInt32 (nMinDiskSpace MIN_DISK_SPACE_FOR_BLOCK_FILES)) INT_MAX
      ∧ setModel env MIN_DISK_SPACE_FOR_BLOCK_FILES (some m) ui mapper
          = setMapper env m ui1 mapper := by
  unfold setModel
  simp only []
  by_cases hr : m.isRestartRequired = true
  · refine ⟨_, ?_, ?_, rfl⟩
    · simp [hr, showRestartWarning]
    · simp [hr, showRestartWarning]
  · refine ⟨_, ?_, ?_, rfl⟩
    · simp [hr]
    · simp [hr]

/-- C15: the prune setting round-trips. For every stored value p that is 0, 1, or within the
prune spin box range from nMinDiskSpace (MIN_DISK_SPACE_FOR_BLOCK_FILES divided by 2^20,
rounded up) to INT_MAX, `setModel` (which sets that range and runs `setMapper`) followed by
`on_okButton_clicked` with nothing edited writes exactly p to `OptionsModel::PruneMiB`, once:
unchecked writes 0, partially checked writes 1, checked writes the spin box value. -/
theorem prune_round_trip (env : Env) (MIN_DISK_SPACE_FOR_BLOCK_FILES : Nat)
    (model : OptionsModel) (ui0 ui : Ui) (mapper : QDataWidgetMapper) (p : Int)
    (hModel : model.data (some OptionID.PruneMiB) = QVariant.ofInt p)
    (hRange : p = 0 ∨ p = 1
      ∨ ((nMinDiskSpace MIN_DISK_SPACE_FOR_BLOCK_FILES : Int) ≤ p ∧ p ≤ INT_MAX))
    (hSet : setModel env MIN_DISK_SPACE_FOR_BLOCK_FILES (some model) ui0 ⟨[]⟩ = (ui, mapper))
    (hUnedited : ∀ tab ∈ ui.tabs, ∀ lineedit, Child.lineEdit lineedit ∈ tab →
      (lineedit.hasAcceptableInput = true
        ∨ env.variantEqualsText (model.data (mapper.mappedSection lineedit.objectName))
            lineedit.text = true)) :
    writesTo OptionID.PruneMiB (on_okButton_clicked env model ui mapper) = [QVariant.ofInt p]
      ∧ (p = 0 → ui.prune.checkState = CheckState.Unchecked)
      ∧ (p = 1 → ui.prune.checkState = CheckState.PartiallyChecked)
      ∧ (p ≠ 0 → p ≠ 1 → ui.prune.checkState = CheckState.Checked ∧ ui.pruneSize.value = p)
      ∧ (∀ widget, mapper.mappedSection widget ≠ some OptionID.PruneMiB) := by
  have hp0 : 0 ≤ p ∧ p ≤ 2147483647 := by
    unfold INT_MAX at hRange
    rcases hRange with h | h | h <;> omega
  have hcur : (model.data (some OptionID.PruneMiB)).toLongLong env = p := by
    rw [hModel]
    exact toInt64_of_range p (by omega) hp0.2
  obtain ⟨ui1, _, hsize1, hset1⟩ := setModel_eq env MIN_DISK_SPACE_FOR_BLOCK_FILES model ui0 ⟨[]⟩
  have hui : ui = (setMapper env model ui1 ⟨[]⟩).1 := by rw [← hset1, hSet]
  have hmapper : mapper = (setMapper env model ui1 ⟨[]⟩).2 := by rw [← hset1, hSet]
  have hunmapped : ∀ widget, mapper.mappedSection widget ≠ some OptionID.PruneMiB :=
    fun widget => by
      rw [hmapper]
      exact (setMapper_leaves_rows_unmapped env model ui1 widget).2
  have hstate := setMapper_prune env model ui1 ⟨[]⟩
  rw [← hui, hcur] at hstate
  have hs := scanTabs_eq_none env model mapper ui.tabs hUnedited
  rw [writesTo_PruneMiB_saved env model ui mapper hs]
  by_cases h0 : p = 0
  · subst h0
    simp only [if_true] at hstate
    refine ⟨by rw [hstate], fun _ => hstate, fun h => by omega, fun h => absurd rfl h, hunmapped⟩
  · by_cases h1 : p = 1
    · subst h1
      simp only [one_ne_zero, if_false, if_true] at hstate
      refine ⟨by rw [hstate], fun h => by omega, fun _ => hstate, fun _ h => absurd rfl h,
        hunmapped⟩
    · rw [if_neg h0, if_neg h1] at hstate
      have hin : (nMinDiskSpace MIN_DISK_SPACE_FOR_BLOCK_FILES : Int) ≤ p ∧ p ≤ INT_MAX := by
        rcases hRange with h | h | h
        · exact absurd h h0
        · exact absurd h h1
        · exact h
      have hval : ui.pruneSize.value = p := by
        rw [hui, setMapper_pruneSize env model ui1 ⟨[]⟩ (by rw [hcur]; exact h0)
          (by rw [hcur]; exact h1), hcur, hsize1, toInt32_of_range p (by omega) hp0.2,
          toInt32_of_range _ (by omega) (by have := hin.1; omega)]
        exact setRange_bound _ _ _ _ hin.1 hin.2
      refine ⟨by rw [hstate, hval], fun h => absurd h h0, fun h => absurd h h1,
        fun _ _ => ⟨hstate, hval⟩, hunmapped⟩

theorem prune_round_trip_witness :
    writesTo OptionID.PruneMiB (on_okButton_clicked plainEnv (modelWith 2000 0)
        (setModel plainEnv 576716800 (some (modelWith 2000 0)) blankUi ⟨[]⟩).1
        (setModel plainEnv 576716800 (some (modelWith 2000 0)) blankUi ⟨[]⟩).2)
      = [QVariant.ofInt 2000] :=
  (prune_round_trip plainEnv 576716800 (modelWith 2000 0) blankUi
    (setModel plainEnv 576716800 (some (modelWith 2000 0)) blankUi ⟨[]⟩).1
    (setModel plainEnv 576716800 (some (modelWith 2000 0)) blankUi ⟨[]⟩).2 2000 rfl
    (Or.inr (Or.inr (by decide))) rfl
    (fun tab htab lineedit hmem => by
      obtain ⟨ui1, htabs, _, hset⟩ := setModel_eq plainEnv 576716800 (modelWith 2000 0) blankUi ⟨[]⟩
      rw [hset, setMapper_tabs, htabs] at htab
      rw [List.mem_singleton.mp htab] at hmem
      simp only [List.mem_cons, List.mem_singleton, List.not_mem_nil, or_false] at hmem
      rcases hmem with hc | hc
      · cases hc
      · cases hc
        exact Or.inl rfl)).1

/-! ## The options dialog: proxy validation -/

theorem clearStatusLabel_ok_button (env : Env) (model : Option OptionsModel) (ui : Ui) :
    (clearStatusLabel env model ui).okButtonEnabled = ui.okButtonEnabled
      ∧ (clearStatusLabel env model ui).statusLabel.text
        = clearedStatusText env model := by
  unfold clearStatusLabel clearedStatusText
  cases model with
  | none => exact ⟨rfl, rfl⟩
  | some m =>
    cases hr : m.isRestartRequired
    · simp [hr]
    · simp [hr, showRestartWarning]

/-- C16 (as amended): after `updateProxyValidationState` the OK button is enabled exactly
when the default proxy IP field is valid, the Tor proxy IP field is valid, and each of the
two port fields is disabled or parses to an integer greater than 0. When the default proxy
IP field is invalid or an enabled port field fails that test, the button is disabled and the
status label reads that the supplied proxy address is invalid. When those tests pass, the
button follows the validity of the Tor proxy IP field and the status label is cleared (it
then shows the restart notice if the model requires a restart), also when the Tor field is
invalid. -/
theorem updateProxyValidationState_ok_button (env : Env) (model : Option OptionsModel)
    (ui : Ui) :
    ((updateProxyValidationState env model ui).okButtonEnabled = true
        ↔ (ui.proxyIpValid = true ∧ ui.proxyIpTorValid = true
            ∧ (ui.proxyPort.enabled = false ∨ env.toInt ui.proxyPort.text > 0)
            ∧ (ui.proxyPortTor.enabled = false ∨ env.toInt ui.proxyPortTor.text > 0)))
      ∧ (¬ (ui.proxyIpValid = true
            ∧ (ui.proxyPort.enabled = false ∨ env.toInt ui.proxyPort.text > 0)
            ∧ (ui.proxyPortTor.enabled = false ∨ env.toInt ui.proxyPortTor.text > 0)) →
          (updateProxyValidationState env model ui).okButtonEnabled = false
            ∧ (updateProxyValidationState env model ui).statusLabel.text
              = env.tr "The supplied proxy address is invalid.")
      ∧ ((ui.proxyIpValid = true
            ∧ (ui.proxyPort.enabled = false ∨ env.toInt ui.proxyPort.text > 0)
            ∧ (ui.proxyPortTor.enabled = false ∨ env.toInt ui.proxyPortTor.text > 0)) →
          (updateProxyValidationState env model ui).okButtonEnabled = ui.proxyIpTorValid
            ∧ (updateProxyValidationState env model ui).statusLabel.text
              = clearedStatusText env model) := by
  have hcond : (ui.isValid ProxyWidget.proxyIp
        && (!ui.proxyPort.enabled || decide (env.toInt ui.proxyPort.text > 0))
        && (!ui.proxyPortTor.enabled || decide (env.toInt ui.proxyPortTor.text > 0))) = true
      ↔ (ui.proxyIpValid = true
          ∧ (ui.proxyPort.enabled = false ∨ env.toInt ui.proxyPort.text > 0)
          ∧ (ui.proxyPortTor.enabled = false ∨ env.toInt ui.proxyPortTor.text > 0)) := by
    simp [Ui.isValid, and_assoc]
  have hthen : (ui.proxyIpValid = true
        ∧ (ui.proxyPort.enabled = false ∨ env.toInt ui.proxyPort.text > 0)
        ∧ (ui.proxyPortTor.enabled = false ∨ env.toInt ui.proxyPortTor.text > 0)) →
      updateProxyValidationState env model ui
        = clearStatusLabel env model (setOkButtonState ui ui.proxyIpTorValid) := by
    intro h
    unfold updateProxyValidationState
    simp only []
    rw [if_pos (hcond.mpr h)]
    rfl
  have helse : ¬ (ui.proxyIpValid = true
        ∧ (ui.proxyPort.enabled = false ∨ env.toInt ui.proxyPort.text > 0)
        ∧ (ui.proxyPortTor.enabled = false ∨ env.toInt ui.proxyPortTor.text > 0)) →
      (updateProxyValidationState env model ui).okButtonEnabled = false
        ∧ (updateProxyValidationState env model ui).statusLabel.text
          = env.tr "The supplied proxy address is invalid." := by
    intro h
    unfold updateProxyValidationState
    simp only []
    rw [if_neg (fun hc => h (hcond.mp hc))]
    exact ⟨rfl, rfl⟩
  have hthen' : (ui.proxyIpValid = true
        ∧ (ui.proxyPort.enabled = false ∨ env.toInt ui.proxyPort.text > 0)
        ∧ (ui.proxyPortTor.enabled = false ∨ env.toInt ui.proxyPortTor.text > 0)) →
      (updateProxyValidationState env model ui).okButtonEnabled = ui.proxyIpTorValid
        ∧ (updateProxyValidationState env model ui).statusLabel.text
          = clearedStatusText env model := by
    intro h
    rw [hthen h]
    obtain ⟨h1, h2⟩ := clearStatusLabel_ok_button env model (setOkButtonState ui ui.proxyIpTorValid)
    exact ⟨h1, h2⟩
  refine ⟨?_, helse, hthen'⟩
  constructor
  · intro hen
    by_cases h : (ui.proxyIpValid = true
        ∧ (ui.proxyPort.enabled = false ∨ env.toInt ui.proxyPort.text > 0)
        ∧ (ui.proxyPortTor.enabled = false ∨ env.toInt ui.proxyPortTor.text > 0))
    · have := (hthen' h).1
      rw [hen] at this
      exact ⟨h.1, this.symm, h.2.1, h.2.2⟩
    · have := (helse h).1
      rw [hen] at this
      cases this
  · rintro ⟨h1, h2, h3, h4⟩
    rw [(hthen' ⟨h1, h3, h4⟩).1, h2]

theorem updateProxyValidationState_ok_button_witness :
    (updateProxyValidationState plainEnv (some (modelWith 0 0))
        { blankUi with proxyIpValid := false }).okButtonEnabled = false
      ∧ (updateProxyValidationState plainEnv (some (modelWith 0 0))
        { blankUi with proxyIpValid := false }).statusLabel.text
        = "The supplied proxy address is invalid."
      ∧ (updateProxyValidationState plainEnv (some (modelWith 0 0))
        torInvalidUi).okButtonEnabled = false
      ∧ (updateProxyValidationState plainEnv (some (modelWith 0 0))
        torInvalidUi).statusLabel.text = "" :=
  ⟨((updateProxyValidationState_ok_button plainEnv (some (modelWith 0 0))
      { blankUi with proxyIpValid := false }).2.1 (fun h => Bool.noConfusion h.1)).1,
    ((updateProxyValidationState_ok_button plainEnv (some (modelWith 0 0))
      { blankUi with proxyIpValid := false }).2.1 (fun h => Bool.noConfusion h.1)).2,
    ((updateProxyValidationState_ok_button plainEnv (some (modelWith 0 0))
      torInvalidUi).2.2 ⟨rfl, Or.inl rfl, Or.inl rfl⟩).1,
    ((updateProxyValidationState_ok_button plainEnv (some (modelWith 0 0))
      torInvalidUi).2.2 ⟨rfl, Or.inl rfl, Or.inl rfl⟩).2⟩

/-- C16 (as stated) fails: with a valid default proxy IP field, both port fields disabled and
an invalid Tor proxy IP field, the OK button is disabled, yet the status label does not read
that the supplied proxy address is invalid; it has been cleared. -/
theorem updateProxyValidationState_tor_invalid_counterexample :
    ¬ (((updateProxyValidationState plainEnv (some (modelWith 0 0))
            torInvalidUi).okButtonEnabled = true
          ↔ (torInvalidUi.proxyIpValid = true ∧ torInvalidUi.proxyIpTorValid = true
              ∧ (torInvalidUi.proxyPort.enabled = false
                  ∨ plainEnv.toInt torInvalidUi.proxyPort.text > 0)
              ∧ (torInvalidUi.proxyPortTor.enabled = false
                  ∨ plainEnv.toInt torInvalidUi.proxyPortTor.text > 0)))
        ∧ (¬ (torInvalidUi.proxyIpValid = true ∧ torInvalidUi.proxyIpTorValid = true
              ∧ (torInvalidUi.proxyPort.enabled = false
                  ∨ plainEnv.toInt torInvalidUi.proxyPort.text > 0)
              ∧ (torInvalidUi.proxyPortTor.enabled = false
                  ∨ plainEnv.toInt torInvalidUi.proxyPortTor.text > 0)) →
            (updateProxyValidationState plainEnv (some (modelWith 0 0))
                torInvalidUi).okButtonEnabled = false
              ∧ (updateProxyValidationState plainEnv (some (modelWith 0 0))
                torInvalidUi).statusLabel.text
                = plainEnv.tr "The supplied proxy address is invalid.")) := by
  rintro ⟨_, h⟩
  have hlabel := (h (fun hc => Bool.noConfusion hc.2.1)).2
  have hclear : (updateProxyValidationState plainEnv (some (modelWith 0 0))
      torInvalidUi).statusLabel.text = "" := rfl
  rw [hclear] at hlabel
  exact absurd hlabel (by decide)

end OptionsDialog
